import Mathlib

/-!
# Plugin supervisor of `Sah85/provision` (`midlayer/messaging.go`)

A shallow embedding of the admission / drain barrier (`Reserve`, `Release`,
`Unload`), of the start-up handshake (`NewPluginClient`) and the log reader
(`readLog`) of the plugin client, of `SecureData` (`models/secureData.go`),
of `Job.Validate` (`models/job.go`), of the token helpers of
`backend/jwt-utils.go`, of the `tasks add` argument check (`cli/machines.go`)
and of `Hexaddr` (`models/lease.go`), followed by the properties proved about
them.

Conventions of the embedding

* Go's `error` is `Option String`: `none` is `nil`, `some msg` an error whose
  text is `msg`.  A `*PluginClient` result is `Option PluginClient`.
* `pc.inflight` is a Go `int`.  It moves by one per call, so it is embedded as
  an unbounded `Int`: leaving the machine range takes more calls than a
  process can make.
* The mutex `publock` is embedded as atomicity: every stretch of code that
  runs with the lock held is one step of the transition system `Sys.step`.
* Calls on the logger are recorded as `LogEntry` values; the flag `noPublish`
  says whether the call went through `NoPublish()`.
-/

namespace Provision

/-! ## Logging -/

/-- Severity of a call on `logger.Logger` (`Tracef`, `Debugf`, `Infof`, `Errorf`). -/
inductive Level
  | trace
  | debug
  | info
  | error
  deriving DecidableEq, Repr

/-- One call on the logger: its level, whether it was made through
`NoPublish()`, and the formatted message. -/
structure LogEntry where
  level : Level
  noPublish : Bool
  msg : String
  deriving DecidableEq, Repr

/-! ## The plugin client -/

/-- The `exec.Cmd` built by `exec.Command(path, args...)` with its `Env`. -/
structure Cmd where
  path : String
  args : List String
  env : List String
  deriving DecidableEq, Repr

/-- The fields of `PluginClient` (messaging.go, l.18-32) that the code under
study reads or writes.  `finished` is the capacity of the channel, `client`
the unix socket path the HTTP client dials. -/
structure PluginClient where
  plugin : String
  cmd : Option Cmd
  finished : Option Nat
  inflight : Int
  unloading : Bool
  client : Option String
  deriving DecidableEq, Repr

/-- The value `&PluginClient{pc: pc, plugin: plugin, Logger: l}` of l.94: every
other field has Go's zero value. -/
def PluginClient.fresh (plugin : String) : PluginClient :=
  { plugin := plugin, cmd := none, finished := none, inflight := 0,
    unloading := false, client := none }

/-! ## Admission / drain barrier -/

/-- Body of `Reserve` (l.51-64), run with `publock` held: the client after the
call, the returned error and the log calls made. -/
def PluginClient.Reserve (pc : PluginClient) : PluginClient × Option String × List LogEntry :=
  let started : LogEntry := ⟨.trace, true, "Reserve: started\n"⟩
  if pc.unloading then
    let err := "Publish not available " ++ pc.plugin ++ ": unloading\n"
    (pc, some err, [started, ⟨.trace, true, "Reserve: finished: " ++ err ++ "\n"⟩])
  else
    let pc1 := { pc with inflight := pc.inflight + 1 }
    (pc1, none, [started, ⟨.trace, true, "Reserve: finished: " ++ toString pc1.inflight ++ "\n"⟩])

/-- Body of `Release` (l.66-72), run with `publock` held. -/
def PluginClient.Release (pc : PluginClient) : PluginClient × List LogEntry :=
  let pc1 := { pc with inflight := pc.inflight - 1 }
  (pc1, [⟨.trace, true, "Release: started\n"⟩,
         ⟨.trace, true, "Release: finished: " ++ toString pc1.inflight ++ "\n"⟩])

/-- Where the caller of `Unload` stands: not inside `Unload`, asleep at l.85
with the lock released after `count` completed iterations, or back from the
call. -/
inductive UnloadPc
  | idle
  | sleeping (count : Nat)
  | returned
  deriving DecidableEq, Repr

/-- The loop test of l.79 and what follows it while the lock is still held:
either the body up to `Unlock` (l.80-84), leaving the caller asleep, or the
exit of the loop and the return (l.88-90). -/
def PluginClient.unloadCheck (pc : PluginClient) (count : Nat) : UnloadPc × List LogEntry :=
  if pc.inflight ≠ 0 then
    (.sleeping (count + 1),
      if count % 100 = 0 then
        [⟨.trace, false, "Unload: waiting - " ++ toString pc.inflight ++ "\n"⟩]
      else [])
  else
    (.returned, [⟨.trace, false, "Unload: finished\n"⟩])

/-- Entry of `Unload` (l.75-79): take the lock, set `unloading`, start the
count at 0 and run the first loop test. -/
def PluginClient.unloadBegin (pc : PluginClient) : PluginClient × UnloadPc × List LogEntry :=
  let pc1 := { pc with unloading := true }
  let r := pc1.unloadCheck 0
  (pc1, r.1, ⟨.trace, false, "Unload: started\n"⟩ :: r.2)

/-- One poll of `Unload`: wake up, retake the lock (l.86) and run the loop
test again. -/
def PluginClient.unloadPoll (pc : PluginClient) (count : Nat) :
    PluginClient × UnloadPc × List LogEntry :=
  let r := pc.unloadCheck count
  (pc, r.1, r.2)

/-- What can happen next on one client: another caller runs `Reserve`, another
caller runs `Release`, or the caller of `Unload` runs its next stretch of code
under the lock (the entry of `Unload` when it is not inside a call, a poll
when it is asleep). -/
inductive Action
  | reserve
  | release
  | unload
  deriving DecidableEq, Repr

/-- The client shared by all callers, the position of the caller of `Unload`
and the log written so far. -/
structure Sys where
  pc : PluginClient
  unl : UnloadPc
  log : List LogEntry
  deriving DecidableEq, Repr

/-- The system around a client on which `Unload` has not been called and
nothing has been logged yet. -/
def Sys.init (pc : PluginClient) : Sys :=
  { pc := pc, unl := .idle, log := [] }

/-- The system around a client just built by l.94. -/
def Sys.fresh (plugin : String) : Sys :=
  Sys.init (PluginClient.fresh plugin)

/-- One step of the interleaving. -/
def Sys.step (s : Sys) : Action → Sys
  | .reserve =>
    let r := s.pc.Reserve
    { s with pc := r.1, log := s.log ++ r.2.2 }
  | .release =>
    let r := s.pc.Release
    { s with pc := r.1, log := s.log ++ r.2 }
  | .unload =>
    match s.unl with
    | .sleeping count =>
      let r := s.pc.unloadPoll count
      { pc := r.1, unl := r.2.1, log := s.log ++ r.2.2 }
    | _ =>
      let r := s.pc.unloadBegin
      { pc := r.1, unl := r.2.1, log := s.log ++ r.2.2 }

/-- The state after a finite sequence of steps. -/
def Sys.run (s : Sys) : List Action → Sys
  | [] => s
  | a :: as => (s.step a).run as

/-- Number of `Reserve` calls of the sequence that returned `nil`. -/
def reserveSuccesses (s : Sys) : List Action → Nat
  | [] => 0
  | a :: as =>
    (if a = .reserve ∧ s.pc.Reserve.2.1 = none then 1 else 0) + reserveSuccesses (s.step a) as

/-- Number of `Release` calls of the sequence. -/
def releaseCalls : List Action → Nat
  | [] => 0
  | a :: as => (if a = .release then 1 else 0) + releaseCalls as

/-- Once the caller of `Unload` has entered the call, the flag is set. -/
def Sys.entered (s : Sys) : Prop :=
  s.unl = .idle ∨ s.pc.unloading = true

/-! ## Start-up handshake -/

/-- The `params map[string]interface{}` handed on to `Config`; the code under
study never looks inside it. -/
abbrev Params := List (String × String)

/-- What `NewPluginClient` and `readLog` do that is visible outside the client
value, in program order: a call on the logger, the call of `pluginServer`,
the command built by `exec.Command` with the `Env` given to it (l.101-108),
closing the child's stdin, starting a `readLog` goroutine, `cmd.Start()`, the
`Config` call, the `Stop` call, and a send on the `finished` channel. -/
inductive Event
  | log (e : LogEntry)
  | pluginServer (retSocketPath : String)
  | command (cmd : Cmd)
  | closeStdin
  | goReadLog (name : String)
  | start
  | config (params : Params)
  | stop
  | sendFinished
  deriving DecidableEq, Repr

/-- The outcomes of the calls `NewPluginClient` makes into the operating system
and into the plugin: `os.Environ()`, the errors of `StderrPipe`, `StdoutPipe`,
`StdinPipe` and `cmd.Start()`, the lines the scanner yields on the plugin's
stdout, the error `in.Err()` reports once the scanner has stopped (`none` at
EOF), and the error `Config` returns for given params. -/
structure Host where
  environ : List String
  stderrPipe : Option String
  stdoutPipe : Option String
  stdinPipe : Option String
  start : Option String
  soLines : List String
  soErr : Option String
  config : Params → Option String

/-- The log call of l.151 for one start-up line. -/
def startupEntry (plugin s : String) : LogEntry :=
  ⟨.info, false, "Plugin " ++ plugin ++ ": start-up: " ++ s⟩

/-- State at the exit of the loop of l.141-152: the variable `failed`, whether
the loop was left by `break`, and the log calls made. -/
structure Scan where
  failed : Bool
  stopped : Bool
  logged : List LogEntry
  deriving DecidableEq, Repr

/-- The loop of l.141-152 over the tokens that the scanner `in` yields, which
are the lines of stdout as far as `Stream.scan` lets them through. -/
def scanReady (plugin : String) : List String → Scan
  | [] => { failed := false, stopped := false, logged := [] }
  | s :: rest =>
    if s = "READY!" then
      { failed := false, stopped := true, logged := [] }
    else if s = "Failed" then
      { failed := true, stopped := true, logged := [] }
    else
      let r := scanReady plugin rest
      { r with logged := startupEntry plugin s :: r.logged }

/-- Results of `NewPluginClient`: `answer`, `theErr`, and what it did on the
way. -/
structure NewResult where
  answer : Option PluginClient
  theErr : Option String
  events : List Event
  deriving DecidableEq, Repr

/-- Lines 161-182: start the stdout reader, build the HTTP client, call
`Config`, and on its error call `Stop` and return that error next to the
client. -/
def configure (h : Host) (answer : PluginClient) (plugin socketPath : String)
    (params : Params) (ev : List Event) : NewResult :=
  let ev := ev ++ [.goReadLog "so"]
  let answer := { answer with client := some socketPath }
  let ev := ev ++ [.log ⟨.debug, false, "Config Plugin: " ++ plugin ++ "\n"⟩, .config params]
  let done : Event := .log ⟨.debug, false, "Initialzing Plugin: complete " ++ plugin ++ "\n"⟩
  match h.config params with
  | some terr =>
    { answer := some answer, theErr := some terr,
      events := ev ++ [.log ⟨.debug, false,
        "Stop Plugin: " ++ plugin ++ " Error: " ++ terr ++ "\n"⟩, .stop, done] }
  | none => { answer := some answer, theErr := none, events := ev ++ [done] }

/-- Lines 129-182: start the stderr reader and the process, read stdout up to
the first sentinel, return `nil` and an error after "Failed", and go on to
`configure` otherwise. -/
def handshake (h : Host) (answer : PluginClient) (plugin socketPath : String)
    (params : Params) (ev : List Event) : NewResult :=
  let answer := { answer with finished := some 2 }
  let ev := ev ++ [.goReadLog "se",
    .log ⟨.debug, false, "Start Plugin: " ++ plugin ++ "\n"⟩, .start,
    .log ⟨.debug, false, "Wait for ready\n"⟩]
  let sc := scanReady answer.plugin h.soLines
  let ev := ev ++ sc.logged.map Event.log
  let ev := ev ++
    (if sc.stopped then []
     else match h.soErr with
       | some err =>
         [.log ⟨.error, false, "Plugin " ++ answer.plugin ++ ": start-up error: " ++ err⟩]
       | none => [])
  if sc.failed then
    let err := "Failed to start plugin - didn't respond cleanly"
    { answer := none, theErr := some err, events := ev ++ [.log ⟨.error, false, err ++ "\n"⟩] }
  else
    configure h answer plugin socketPath params ev

/-- The function `NewPluginClient` (l.93-182).  The controller and the logger
arguments are not data of the model: the logger shows as `Event.log`. -/
def NewPluginClient (h : Host) (pluginCommDir plugin apiURL staticURL token path : String)
    (params : Params) : NewResult :=
  let answer := PluginClient.fresh plugin
  let retSocketPath := pluginCommDir ++ "/" ++ plugin ++ ".fromPlugin"
  let socketPath := pluginCommDir ++ "/" ++ plugin ++ ".toPlugin"
  let env := h.environ ++ ["RS_ENDPOINT=" ++ apiURL] ++ ["RS_FILESERVER=" ++ staticURL]
    ++ ["RS_TOKEN=" ++ token]
  let cmd : Cmd := { path := path, args := ["listen", socketPath, retSocketPath], env := env }
  let answer := { answer with cmd := some cmd }
  let ev : List Event :=
    [.log ⟨.debug, false, "Initialzing Plugin: " ++ plugin ++ "\n"⟩, .pluginServer retSocketPath,
      .command cmd]
  match h.stderrPipe with
  | some err2 => { answer := none, theErr := some err2, events := ev }
  | none =>
    match h.stdoutPipe with
    | some err2 => { answer := none, theErr := some err2, events := ev }
    | none =>
      match h.stdinPipe with
      | some err2 => { answer := none, theErr := some err2, events := ev }
      | none => handshake h answer plugin socketPath params (ev ++ [.closeStdin])

/-- The body of `readLog` (l.34-49) when the scanner `in` yields the tokens
`lines` and `in.Err()` then reports `err` (`none` for nil).  What the scanner
yields on a given stream `com` is `Stream.scan`; `readLogStream` puts the two
together. -/
def readLog (pc : PluginClient) (name : String) (lines : List String) (err : Option String) :
    List Event :=
  [.log ⟨.trace, false, "readLog: Starting log reader " ++ pc.plugin ++ "(" ++ name ++ ")\n"⟩]
  ++ lines.map (fun s =>
      Event.log ⟨.info, true, "Plugin " ++ pc.plugin ++ "(" ++ name ++ "): " ++ s⟩)
  ++ (match err with
      | some e =>
        [.log ⟨.error, false, "Plugin " ++ pc.plugin ++ "(" ++ name ++ "): error: " ++ e⟩]
      | none => [])
  ++ [.sendFinished,
      .log ⟨.trace, false, "readLog: Finished log reader " ++ pc.plugin ++ "(" ++ name ++ ")\n"⟩]

/-- The params of the `Config` calls among the events, in order. -/
def configCalls : List Event → List Params
  | [] => []
  | .config p :: es => p :: configCalls es
  | _ :: es => configCalls es

/-- Number of `Stop` calls among the events. -/
def stopCalls : List Event → Nat
  | [] => 0
  | .stop :: es => stopCalls es + 1
  | _ :: es => stopCalls es

/-- The commands built with `exec.Command` among the events, in order. -/
def commands : List Event → List Cmd
  | [] => []
  | .command c :: es => c :: commands es
  | _ :: es => commands es

/-- The calls on the logger at level Info among the events, in order. -/
def infoLogs : List Event → List LogEntry
  | [] => []
  | .log e :: es => if e.level = .info then e :: infoLogs es else infoLogs es
  | _ :: es => infoLogs es

/-- A line is a sentinel of the handshake when it is "READY!" or "Failed". -/
def isSentinel (s : String) : Prop :=
  s = "READY!" ∨ s = "Failed"

instance isSentinel.decidable (s : String) : Decidable (isSentinel s) :=
  inferInstanceAs (Decidable (s = "READY!" ∨ s = "Failed"))

/-- The first sentinel line of `lines` is `sentinel`: it occurs in `lines`
after lines that are not sentinels. -/
def FirstSentinel (lines : List String) (sentinel : String) : Prop :=
  isSentinel sentinel ∧
    ∃ front back, lines = front ++ sentinel :: back ∧ ∀ s ∈ front, ¬ isSentinel s

/-- All three pipes of l.111-127 were created. -/
def Host.pipesOk (h : Host) : Prop :=
  h.stderrPipe = none ∧ h.stdoutPipe = none ∧ h.stdinPipe = none

instance Host.pipesOk.decidable (h : Host) : Decidable h.pipesOk :=
  inferInstanceAs (Decidable (h.stderrPipe = none ∧ h.stdoutPipe = none ∧ h.stdinPipe = none))

/-- A host on which the three pipes are created and the process starts, whose
plugin writes `lines` on stdout and then closes it, and whose `Config` call
returns `cfg`. -/
def Host.quiet (lines : List String) (cfg : Option String) : Host :=
  { environ := ["PATH=/usr/bin"], stderrPipe := none, stdoutPipe := none, stdinPipe := none,
    start := none, soLines := lines, soErr := none, config := fun _ => cfg }

/-- The call of `NewPluginClient` for the plugin "incrementer" on a host. -/
def loadIncrementer (h : Host) : NewResult :=
  NewPluginClient h "/var/run/drp" "incrementer" "https://127.0.0.1:8092"
    "http://127.0.0.1:8091" "token" "/var/lib/drp/plugins/incrementer" [("level", "1")]

/-- The events of `handshake` up to the exit of the read loop (l.129-155),
after the events `ev` that came before. -/
def readEvents (h : Host) (plugin : String) (ev : List Event) : List Event :=
  ev ++ [.goReadLog "se",
    .log ⟨.debug, false, "Start Plugin: " ++ plugin ++ "\n"⟩, .start,
    .log ⟨.debug, false, "Wait for ready\n"⟩]
  ++ (scanReady plugin h.soLines).logged.map Event.log
  ++ (if (scanReady plugin h.soLines).stopped then []
      else match h.soErr with
        | some err =>
          [.log ⟨.error, false, "Plugin " ++ plugin ++ ": start-up error: " ++ err⟩]
        | none => [])

/-- The command of l.101-108: `exec.Command(path, "listen", socketPath,
retSocketPath)` with `Env` set to `os.Environ()` and the three appended
entries. -/
def pluginCmd (h : Host) (pluginCommDir plugin apiURL staticURL token path : String) : Cmd :=
  { path := path,
    args := ["listen", pluginCommDir ++ "/" ++ plugin ++ ".toPlugin",
             pluginCommDir ++ "/" ++ plugin ++ ".fromPlugin"],
    env := h.environ ++ ["RS_ENDPOINT=" ++ apiURL] ++ ["RS_FILESERVER=" ++ staticURL]
      ++ ["RS_TOKEN=" ++ token] }

/-- The events of `NewPluginClient` up to l.108, before the pipes are asked
for. -/
def setupEvents (h : Host) (pluginCommDir plugin apiURL staticURL token path : String) :
    List Event :=
  [.log ⟨.debug, false, "Initialzing Plugin: " ++ plugin ++ "\n"⟩,
   .pluginServer (pluginCommDir ++ "/" ++ plugin ++ ".fromPlugin"),
   .command (pluginCmd h pluginCommDir plugin apiURL staticURL token path)]

/-- A host on which the pipes are created but `cmd.Start()` fails because the
executable is missing: the scanner on stdout yields no line and stops on the
closed pipe, and the `Config` call cannot reach the socket. -/
def Host.spawnFails : Host :=
  { environ := ["PATH=/usr/bin"], stderrPipe := none, stdoutPipe := none, stdinPipe := none,
    start := some "fork/exec /var/lib/drp/plugins/incrementer: no such file or directory",
    soLines := [], soErr := some "read |0: file already closed",
    config := fun _ => some "dial unix /var/run/drp/incrementer.toPlugin: connect: no such file or directory" }

/-! ## SecureData (`models/secureData.go`) -/

/-- One Go `byte`. -/
abbrev Byte := Fin 256

/-- A Go array `[n]byte`: a list of bytes of length `n`. -/
abbrev Bytes (n : Nat) := { l : List Byte // l.length = n }

/-- The struct `SecureData` (l.22-34); the fields are byte slices. -/
structure SecureData where
  Key : List Byte
  Nonce : List Byte
  Payload : List Byte
  deriving DecidableEq, Repr

/-- The error value `BadKey` (l.37). -/
def BadKey : String := "Key must be 32 bytes long"

/-- The error value `BadNonce` (l.38). -/
def BadNonce : String := "Nonce must be 24 bytes long"

/-- The error value `Corrupt` (l.39). -/
def Corrupt : String := "SecureData corrupted"

/-- Modelled from the spec: the constant `box.Overhead` of the library
`golang.org/x/crypto/nacl/box`, which is not among the sources.  The comment
of l.30-33 ("16 bytes longer than the unencrypted data") gives its value. -/
def boxOverhead : Nat := 16

/-- The function `Validate` (l.44-55). -/
def SecureData.Validate (s : SecureData) : Option String :=
  if s.Key.length ≠ 32 then some BadKey
  else if s.Nonce.length ≠ 24 then some BadNonce
  else if s.Payload.length < boxOverhead then some Corrupt
  else none

/-- The calls `Seal` and `Open` make outside the package: the result of
`box.GenerateKey(rand.Reader)` (public key, private key), the result of
`io.ReadFull(rand.Reader, nonce[:])`, and the functions `box.Seal(nil, ...)`
and `box.Open(nil, ...)` on message, nonce, peer public key and private key;
`box.Open` yields `none` when it reports `false`. -/
structure Crypto where
  generateKey : Except String (Bytes 32 × Bytes 32)
  readNonce : Except String (Bytes 24)
  boxSeal : List Byte → Bytes 24 → Bytes 32 → Bytes 32 → List Byte
  boxOpen : List Byte → Bytes 24 → Bytes 32 → Bytes 32 → Option (List Byte)

/-- The function `Seal` (l.74-88): the SecureData after the call and the error
returned. -/
def SecureData.Seal (s : SecureData) (c : Crypto) (peerPublicKey : Bytes 32)
    (data : List Byte) : SecureData × Option String :=
  match c.generateKey with
  | .error err => (s, some ("Error generating ephemeral local keys: " ++ err))
  | .ok (ourPublicKey, ourPrivateKey) =>
    let s1 := { s with Key := ourPublicKey.val }
    match c.readNonce with
    | .error err => (s1, some ("Error generating nonce: " ++ err))
    | .ok nonce =>
      ({ s1 with Nonce := nonce.val,
                 Payload := c.boxSeal data nonce peerPublicKey ourPrivateKey }, none)

/-- The statement `copy(dst[:], src)` on a zeroed array `dst` of `n` bytes. -/
def copyInto (n : Nat) (src : List Byte) : Bytes n :=
  ⟨src.take n ++ List.replicate (n - src.length) 0, by
    simp only [List.length_append, List.length_take, List.length_replicate]
    omega⟩

/-- Results of `Open`: the data, the error, and how many times `box.Open` was
called. -/
structure OpenResult where
  res : Option (List Byte)
  err : Option String
  boxOpenCalls : Nat
  deriving DecidableEq, Repr

/-- The function `Open` (l.124-138). -/
def SecureData.Open (s : SecureData) (c : Crypto) (targetPrivateKey : Bytes 32) : OpenResult :=
  match s.Validate with
  | some err => { res := none, err := some err, boxOpenCalls := 0 }
  | none =>
    let peerPublicKey := copyInto 32 s.Key
    let nonce := copyInto 24 s.Nonce
    match c.boxOpen s.Payload nonce peerPublicKey targetPrivateKey with
    | none => { res := none, err := some Corrupt, boxOpenCalls := 1 }
    | some res => { res := some res, err := none, boxOpenCalls := 1 }

/-- A private key of 32 zero bytes. -/
def zeroKey : Bytes 32 := ⟨List.replicate 32 0, by simp⟩

/-- A SecureData whose Key is one byte short. -/
def SecureData.shortKey : SecureData :=
  { Key := List.replicate 31 0, Nonce := List.replicate 24 0, Payload := List.replicate 16 0 }

/-- The zero value of the struct `SecureData`. -/
def SecureData.zero : SecureData :=
  { Key := [], Nonce := [], Payload := [] }

/-- A stand-in for the library with fixed random bytes, whose `box.Seal` puts
a 16-byte tag in front of the message and whose `box.Open` takes it off. -/
def Crypto.fixed : Crypto :=
  { generateKey := .ok (⟨List.replicate 32 1, by simp⟩, ⟨List.replicate 32 2, by simp⟩),
    readNonce := .ok ⟨List.replicate 24 3, by simp⟩,
    boxSeal := fun msg _ _ _ => List.replicate 16 0 ++ msg,
    boxOpen := fun box _ _ _ => if box.length < 16 then none else some (box.drop 16) }

/-! ## Jobs (`models/job.go`) -/

/-- The fields of `Job` (l.24-62) that `Validate` reads. -/
structure Job where
  Task : String
  Stage : String
  State : String
  ExitState : String
  deriving DecidableEq, Repr

/-- An argument handed to `AddError`: the result of `ValidName(msg, s)`, or
the error `fmt.Errorf(format, arg)`. -/
inductive ErrArg
  | validName (msg s : String)
  | errorf (format arg : String)
  deriving DecidableEq, Repr

/-- The function `Job.Validate` (l.64-80): the arguments of its `AddError`
calls, in order. -/
def Job.Validate (j : Job) : List ErrArg :=
  [.validName "Invalid Task" j.Task, .validName "Invalid Stage" j.Stage]
  ++ (if j.State = "created" ∨ j.State = "running" ∨ j.State = "incomplete" then []
      else if j.State = "failed" ∨ j.State = "finished" then []
      else [.errorf "Invalid State `%s`" j.State])
  ++ (if j.ExitState ≠ "" then
        (if j.ExitState = "reboot" ∨ j.ExitState = "poweroff" ∨ j.ExitState = "stop"
            ∨ j.ExitState = "complete" ∨ j.ExitState = "failed" then []
         else [.errorf "Invalid ExitState `%s`" j.ExitState])
      else [])

/-- A finished job whose final disposition is "failed". -/
def Job.failedExit : Job :=
  { Task := "install", Stage := "discover", State := "failed", ExitState := "failed" }

/-! ## Tokens (`backend/jwt-utils.go`) -/

/-- A `jwt.SigningMethod`; the code under study only calls `Alg()` on it. -/
structure SigningMethod where
  alg : String
  deriving DecidableEq, Repr

/-- The library value `jwt.SigningMethodHS256`, whose `Alg()` is "HS256". -/
def SigningMethodHS256 : SigningMethod := { alg := "HS256" }

/-- The library value `jwt.SigningMethodNone`, whose `Alg()` is "none". -/
def SigningMethodNone : SigningMethod := { alg := "none" }

/-- The library error `jwt.ErrHashUnavailable`. -/
def ErrHashUnavailable : String := "the requested hash function is unavailable"

/-- The struct `JwtConfig` (l.29-32); `none` is a nil `Method`. -/
structure JwtConfig where
  Method : Option SigningMethod
  deriving DecidableEq, Repr

/-- The struct `JwtManager` (l.36-39). -/
structure JwtManager where
  key : List Byte
  method : Option SigningMethod
  deriving DecidableEq, Repr

/-- The function `setDefaults` (l.62-66). -/
def JwtManager.setDefaults (m : JwtManager) : JwtManager :=
  if m.method = none then { m with method := some SigningMethodHS256 } else m

/-- The function `NewJwtManager` (l.43-56); `configs` is the variadic
argument. -/
def NewJwtManager (key : List Byte) (configs : List JwtConfig) : JwtManager :=
  let c : JwtConfig :=
    match configs with
    | [] => { Method := none }
    | c0 :: _ => c0
  JwtManager.setDefaults { key := key, method := c.Method }

/-- The function `updateKey` (l.58-60). -/
def JwtManager.updateKey (m : JwtManager) (newkey : List Byte) : JwtManager :=
  { m with key := newkey }

/-- The field of `jwt.Token` that `getKey` reads; `none` is a nil `Method`. -/
structure Token where
  Method : Option SigningMethod
  deriving DecidableEq, Repr

/-- The function `getKey` (l.71-77).  The outer `none` is the nil dereference
of `m.method.Alg()` on a manager without a method; otherwise the result is
the key, or the error next to a nil key. -/
def JwtManager.getKey (m : JwtManager) (unverified : Token) :
    Option (Except String (List Byte)) :=
  match unverified.Method with
  | none => some (.error ErrHashUnavailable)
  | some meth =>
    match m.method with
    | none => none
    | some mine =>
      if meth.alg ≠ mine.alg then some (.error ErrHashUnavailable) else some (.ok m.key)

/-- The struct `GrantorClaims` (l.145-152). -/
structure GrantorClaims where
  GrantorId : String
  GrantorSecret : String
  UserId : String
  UserSecret : String
  MachineUuid : String
  MachineSecret : String
  deriving DecidableEq, Repr

/-- The function `GrantorClaims.Validate` (l.155-166). -/
def GrantorClaims.Validate (gc : GrantorClaims) (grantor user machine : String) : Bool :=
  if gc.GrantorSecret ≠ "" ∧ grantor ≠ "" ∧ grantor ≠ gc.GrantorSecret then false
  else if gc.UserSecret ≠ "" ∧ user ≠ "" ∧ user ≠ gc.UserSecret then false
  else if gc.MachineSecret ≠ "" ∧ machine ≠ "" ∧ machine ≠ gc.MachineSecret then false
  else true

/-- The struct `models.Claim` as `AddRawClaim` fills it. -/
structure Claim where
  Scope : String
  Action : String
  Specific : String
  deriving DecidableEq, Repr

/-- The struct `jwt.StandardClaims` embedded in `DrpCustomClaims`. -/
structure StandardClaims where
  Audience : String
  ExpiresAt : Int
  Id : String
  IssuedAt : Int
  Issuer : String
  NotBefore : Int
  Subject : String
  deriving DecidableEq, Repr

/-- The struct `DrpCustomClaims` (l.170-175). -/
structure DrpCustomClaims where
  DrpClaims : List Claim
  DrpRoles : List String
  GrantorClaims : GrantorClaims
  StandardClaims : StandardClaims
  deriving DecidableEq, Repr

/-- The function `ValidateSecrets` (l.221-223). -/
def DrpCustomClaims.ValidateSecrets (d : DrpCustomClaims) (grantor user machine : String) :
    Bool :=
  d.GrantorClaims.Validate grantor user machine

/-- What `ClaimsList` and `match` call outside the file, for compiled claims
of type `C`: `(&models.Role{Claims: cs}).Compile()`, the compiled claims
`AsRole(r).CompiledClaims()` of the role `rt.find("roles", name)` (`none` when
no such role is found), and `authed.Contains(wanted)`. -/
structure RoleEnv (C : Type) where
  compile : List Claim → C
  findCompiled : String → Option C
  contains : C → C → Bool

/-- The function `ClaimsList` (l.177-190). -/
def DrpCustomClaims.ClaimsList {C : Type} (d : DrpCustomClaims) (rt : RoleEnv C) : List C :=
  let res : List C := []
  let res := if d.DrpClaims.length > 0 then res ++ [rt.compile d.DrpClaims] else res
  let res := if d.DrpRoles.length > 0 then res ++ d.DrpRoles.filterMap rt.findCompiled else res
  res

/-- The function `match` (l.192-200) on a role with the claims `r`. -/
def DrpCustomClaims.matches {C : Type} (d : DrpCustomClaims) (rt : RoleEnv C)
    (r : List Claim) : Bool :=
  let wantedClaim := rt.compile r
  (d.ClaimsList rt).any (fun authedClaim => rt.contains authedClaim wantedClaim)

/-- The function `NewClaim` (l.227-236).  `now1` and `now2` are the two
readings of `time.Now()` and `ttl` the duration, all in nanoseconds; `Unix()`
is the number of whole seconds. -/
def NewClaim (now1 now2 : Int) (user grantor : String) (ttl : Int) : DrpCustomClaims :=
  { DrpClaims := [], DrpRoles := [],
    GrantorClaims := { GrantorId := grantor, GrantorSecret := "", UserId := user,
                       UserSecret := "", MachineUuid := "", MachineSecret := "" },
    StandardClaims := { Audience := "", ExpiresAt := (now2 + ttl) / 1000000000, Id := user,
                        IssuedAt := now1 / 1000000000, Issuer := "digitalrebar provision",
                        NotBefore := 0, Subject := "" } }

/-- The function `AddMachine` (l.239-242). -/
def DrpCustomClaims.AddMachine (d : DrpCustomClaims) (uuid : String) : DrpCustomClaims :=
  { d with GrantorClaims := { d.GrantorClaims with MachineUuid := uuid } }

/-- The function `AddSecrets` (l.245-250). -/
def DrpCustomClaims.AddSecrets (d : DrpCustomClaims) (user grantor machine : String) :
    DrpCustomClaims :=
  { d with GrantorClaims := { d.GrantorClaims with
      UserSecret := user, GrantorSecret := grantor, MachineSecret := machine } }

/-- The function `AddRawClaim` (l.253-256). -/
def DrpCustomClaims.AddRawClaim (d : DrpCustomClaims) (scope action specific : String) :
    DrpCustomClaims :=
  { d with DrpClaims := d.DrpClaims ++ [{ Scope := scope, Action := action,
                                          Specific := specific }] }

/-- The function `AddRoles` (l.258-261). -/
def DrpCustomClaims.AddRoles (d : DrpCustomClaims) (names : List String) : DrpCustomClaims :=
  { d with DrpRoles := d.DrpRoles ++ names }

/-- A role environment over lists of claims: compiling is the identity, the
role "superuser" is known, and containing is list inclusion. -/
def RoleEnv.plain : RoleEnv (List Claim) :=
  { compile := fun cs => cs,
    findCompiled := fun name =>
      if name = "superuser" then some [{ Scope := "*", Action := "*", Specific := "*" }]
      else none,
    contains := fun authed wanted => wanted.all (fun c => authed.contains c) }

/-! ## The command `machines tasks add` (`cli/machines.go`) -/

/-- The value of a string of decimal digits; `none` when the string is empty
or holds another character. -/
def parseDigits : List Char → Option Nat
  | [] => none
  | cs => cs.foldl (fun acc c =>
      match acc with
      | none => none
      | some n => if c.isDigit then some (n * 10 + (c.toNat - '0'.toNat)) else none) (some 0)

/-- The library function `strconv.Atoi` on a 64-bit platform: an optional sign,
then decimal digits, within the range of `int`; `none` stands for its error. -/
def Atoi (s : String) : Option Int :=
  match s.data with
  | [] => none
  | c :: rest =>
    let neg := decide (c = '-')
    let digits := if c = '+' ∨ c = '-' then rest else c :: rest
    match parseDigits digits with
    | none => none
    | some n =>
      if neg then (if n > 2 ^ 63 then none else some (-(n : Int)))
      else (if n ≥ 2 ^ 63 then none else some (n : Int))

/-- The `Args` function of `tasks add` (l.62-75); `useLine` is `c.UseLine()`.
The error of l.71 has one argument for two verbs, so `fmt` prints the second
as missing. -/
def tasksAddArgs (useLine : String) (args : List String) : Option String :=
  if args.length < 2 then
    some (useLine ++ " requires at least an id and one task")
  else if args.getD 1 "" = "at" then
    if args.length < 4 then
      some (useLine ++ " requires at least 3 arguments when specifying an offset")
    else if Atoi (args.getD 2 "") = none then
      some (args.getD 2 "" ++ ": %!s(MISSING) is not a number")
    else none
  else none

/-- Lines 77-85 of the `RunE` function of `tasks add`: the id, the offset and
the tasks it hands to `AddTasks`.  It runs after `Args` has returned nil, so
`args` has at least two entries. -/
def tasksAddRun (args : List String) : String × Int × List String :=
  let id := args.getD 0 ""
  if args.getD 1 "" = "at" then
    (id, (Atoi (args.getD 2 "")).getD 0, args.drop 3)
  else
    (id, -1, args.drop 1)

/-! ## Observations on the log readers and on the drain loop -/

/-- Number of sends on the `finished` channel among the events. -/
def finishedSends : List Event → Nat
  | [] => 0
  | .sendFinished :: es => finishedSends es + 1
  | _ :: es => finishedSends es

/-- The names of the `readLog` goroutines started among the events, in order. -/
def readers : List Event → List String
  | [] => []
  | .goReadLog name :: es => name :: readers es
  | _ :: es => readers es

/-- An entry is a progress entry of `Unload` when its message starts with
"Unload: waiting - ", the constant part of the format of l.81. -/
def isWaiting (e : LogEntry) : Bool :=
  decide (e.msg.data.take 18 = "Unload: waiting - ".data)

/-- The log entries written by one step. -/
def Sys.emitted (s : Sys) (a : Action) : List LogEntry :=
  (s.step a).log.drop s.log.length

/-- The log entries written by the steps of `Unload` in a run, in order. -/
def unloadLog (s : Sys) : List Action → List LogEntry
  | [] => []
  | a :: as => (if a = .unload then s.emitted a else []) ++ unloadLog (s.step a) as

/-- Number of steps of `Unload` in a sequence. -/
def unloadSteps : List Action → Nat
  | [] => 0
  | a :: as => (if a = .unload then 1 else 0) + unloadSteps as

/-- Every step of `Unload` in the run finds the counter nonzero, and so is one
iteration of the drain loop. -/
def Sys.polling (s : Sys) : List Action → Bool
  | [] => true
  | a :: as => (a != .unload || decide (s.pc.inflight ≠ 0)) && (s.step a).polling as

/-- The value of `count` in `Unload`: the number of iterations completed by
the call in progress, 0 when no call is in progress. -/
def Sys.count (s : Sys) : Nat :=
  match s.unl with
  | .sleeping c => c
  | _ => 0

/-! ## Lease and reservation keys (`models/lease.go`, `models/reservation.go`) -/

/-- The table `hexDigit` (lease.go, l.8). -/
def hexDigit : List Char :=
  ['0', '1', '2', '3', '4', '5', '6', '7', '8', '9', 'A', 'B', 'C', 'D', 'E', 'F']

/-- The library method `net.IP.To4`: a 4-byte address as it is; the last four
bytes of a 16-byte address whose first ten bytes are zero and whose next two
are 0xff; nil, the empty slice, for anything else. -/
def To4 (ip : List Byte) : List Byte :=
  if ip.length = 4 then ip
  else if ip.length = 16 ∧ ip.take 10 = List.replicate 10 0
      ∧ ip.getD 10 0 = 255 ∧ ip.getD 11 0 = 255 then ip.drop 12
  else []

/-- The two characters the loop of l.13-15 writes for one byte. -/
def hexPair (tn : Byte) : List Char :=
  [hexDigit.getD (tn.val >>> 4) '0', hexDigit.getD (tn.val &&& 0xf) '0']

/-- The function `Hexaddr` (lease.go, l.10-17). -/
def Hexaddr (addr : List Byte) : String :=
  let b := To4 addr
  String.mk (b.flatMap hexPair)

/-- The field of `Lease` (lease.go, l.20-52) that `Key` reads. -/
structure Lease where
  Addr : List Byte
  deriving DecidableEq, Repr

/-- The function `Lease.Key` (lease.go, l.58-60). -/
def Lease.Key (l : Lease) : String := Hexaddr l.Addr

/-- The field of `Reservation` (reservation.go, l.8-39) that `Key` reads. -/
structure Reservation where
  Addr : List Byte
  deriving DecidableEq, Repr

/-- The function `Reservation.Key` (reservation.go, l.53-55). -/
def Reservation.Key (r : Reservation) : String := Hexaddr r.Addr

/-- The 16-byte IPv4-mapped form of the address a.b.c.d. -/
def mapped4 (a b c d : Byte) : List Byte :=
  [0, 0, 0, 0, 0, 0, 0, 0, 0, 0, 255, 255, a, b, c, d]

/-! ## Token encryption (`backend/jwt-utils.go`, l.79-123) -/

/-- The calls `encrypt` and `decrypt` make into the libraries: the result of
`io.ReadFull(rand.Reader, iv)` on the 16 bytes of the IV; `XORKeyStream` of
the CFB encrypter and of the CFB decrypter for a key and an IV, which write as
many bytes as they read; `base64.URLEncoding.EncodeToString` and
`DecodeString`.  A Go string is embedded as its bytes. -/
structure CipherLib where
  readIV : Except String (Bytes 16)
  cfbEncrypt : List Byte → List Byte → (src : List Byte) →
    { dst : List Byte // dst.length = src.length }
  cfbDecrypt : List Byte → List Byte → (src : List Byte) →
    { dst : List Byte // dst.length = src.length }
  b64encode : List Byte → List Byte
  b64decode : List Byte → Except String (List Byte)

/-- The library constant `aes.BlockSize`. -/
def aesBlockSize : Nat := 16

/-- The error of the library function `aes.NewCipher(key)`: it fails exactly
on a key that is not 16, 24 or 32 bytes long. -/
def aesKeyError (key : List Byte) : Option String :=
  if key.length = 16 ∨ key.length = 24 ∨ key.length = 32 then none
  else some ("crypto/aes: invalid key size " ++ toString key.length)

/-- The function `encrypt` (l.79-97). -/
def encrypt (lib : CipherLib) (key text : List Byte) : Except String (List Byte) :=
  match aesKeyError key with
  | some err => .error err
  | none =>
    match lib.readIV with
    | .error err => .error err
    | .ok iv =>
      let ciphertext := iv.val ++ (lib.cfbEncrypt key iv.val text).val
      .ok (lib.b64encode ciphertext)

/-- The function `decrypt` (l.99-123). -/
def decrypt (lib : CipherLib) (key b64ciphertext : List Byte) : Except String (List Byte) :=
  match aesKeyError key with
  | some err => .error err
  | none =>
    match lib.b64decode b64ciphertext with
    | .error err => .error err
    | .ok ciphertext =>
      if ciphertext.length < aesBlockSize then .error "ciphertext too short"
      else
        let iv := ciphertext.take aesBlockSize
        let rest := ciphertext.drop aesBlockSize
        .ok (lib.cfbDecrypt key iv rest).val

/-- A stand-in for the libraries: a fixed IV, a stream cipher that adds one to
every byte and one that takes it off again, an encoding that reverses the
bytes. -/
def CipherLib.fixed : CipherLib :=
  { readIV := .ok ⟨List.replicate 16 7, by simp⟩,
    cfbEncrypt := fun _ _ src => ⟨src.map (· + 1), by simp⟩,
    cfbDecrypt := fun _ _ src => ⟨src.map (· - 1), by simp⟩,
    b64encode := fun bs => bs.reverse,
    b64decode := fun bs => .ok bs.reverse }

/-! ## Streams, the line scanner and the environment of the child -/

/-- The library constant `bufio.MaxScanTokenSize`. -/
def maxScanTokenSize : Nat := 64 * 1024

/-- The library error `bufio.ErrTooLong`. -/
def ErrTooLong : String := "bufio.Scanner: token too long"

/-- A text stream as a pipe delivers it: its lines, without their line
endings, and the read error that ends it (`none` at EOF). -/
structure Stream where
  lines : List String
  err : Option String
  deriving DecidableEq, Repr

/-- A line fits the buffer of a scanner made by `bufio.NewScanner`: the line
and its line feed take at most `bufio.MaxScanTokenSize` bytes. -/
def fitsScanner (s : String) : Bool :=
  decide (s.utf8ByteSize < maxScanTokenSize)

/-- What the scanner `bufio.NewScanner(com)` yields over `Scan()` and `Text()`,
and what `Err()` reports once `Scan()` has returned false: the lines up to the
first one that does not fit its buffer, where it stops with `ErrTooLong`
without yielding that line or any later one; when every line fits, all the
lines and the read error of the stream (nil at EOF). -/
def Stream.scan (com : Stream) : List String × Option String :=
  (com.lines.takeWhile fitsScanner,
   if com.lines.all fitsScanner then com.err else some ErrTooLong)

/-- The host on which the stdout pipe of the plugin delivers the stream `so`:
the scanner of l.140 yields `so.scan`. -/
def Host.withStdout (h : Host) (so : Stream) : Host :=
  { h with soLines := so.scan.1, soErr := so.scan.2 }

/-- A line of 64 KiB, one byte more than fits with its line feed. -/
def longLine : String := String.mk (List.replicate 65536 'x')

@[simp]
theorem Reserve_inflight (pc : PluginClient) :
    pc.Reserve.1.inflight = if pc.unloading then pc.inflight else pc.inflight + 1 := by
  unfold PluginClient.Reserve
  split <;> simp_all

@[simp]
theorem Reserve_unloading (pc : PluginClient) :
    pc.Reserve.1.unloading = pc.unloading := by
  unfold PluginClient.Reserve
  split <;> simp_all

@[simp]
theorem Reserve_err_none (pc : PluginClient) :
    pc.Reserve.2.1 = none ↔ pc.unloading = false := by
  unfold PluginClient.Reserve
  split <;> simp_all

@[simp]
theorem Release_inflight (pc : PluginClient) :
    pc.Release.1.inflight = pc.inflight - 1 := rfl

@[simp]
theorem Release_unloading (pc : PluginClient) :
    pc.Release.1.unloading = pc.unloading := rfl

@[simp]
theorem unloadBegin_unloading (pc : PluginClient) :
    pc.unloadBegin.1.unloading = true := rfl

@[simp]
theorem unloadBegin_inflight (pc : PluginClient) :
    pc.unloadBegin.1.inflight = pc.inflight := rfl

@[simp]
theorem unloadPoll_pc (pc : PluginClient) (count : Nat) :
    (pc.unloadPoll count).1 = pc := rfl

theorem step_unload_inflight (s : Sys) : (s.step .unload).pc.inflight = s.pc.inflight := by
  unfold Sys.step
  cases s.unl <;> simp

theorem step_unload_unloading_mono (s : Sys) (h : s.pc.unloading = true) :
    (s.step .unload).pc.unloading = true := by
  unfold Sys.step
  cases s.unl <;> simp [h]

theorem step_unloading_mono (s : Sys) (a : Action) (h : s.pc.unloading = true) :
    (s.step a).pc.unloading = true := by
  cases a
  · simp [Sys.step, h]
  · simp [Sys.step, h]
  · exact step_unload_unloading_mono s h

theorem run_unloading_mono (acts : List Action) :
    ∀ s : Sys, s.pc.unloading = true → (s.run acts).pc.unloading = true := by
  induction acts with
  | nil => intro s h; exact h
  | cons a as ih => intro s h; exact ih _ (step_unloading_mono s a h)

theorem run_append (s : Sys) (xs ys : List Action) :
    s.run (xs ++ ys) = (s.run xs).run ys := by
  induction xs generalizing s with
  | nil => rfl
  | cons a as ih => exact ih _

theorem run_inflight (acts : List Action) :
    ∀ s : Sys, (s.run acts).pc.inflight
      = s.pc.inflight + (reserveSuccesses s acts : Int) - (releaseCalls acts : Int) := by
  induction acts with
  | nil => intro s; simp [Sys.run, reserveSuccesses, releaseCalls]
  | cons a as ih =>
    intro s
    simp only [Sys.run, reserveSuccesses, releaseCalls]
    rw [ih]
    cases a
    · cases hu : s.pc.unloading
      · simp [Sys.step, hu]; ring
      · simp [Sys.step, hu]
    · simp [Sys.step]; ring
    · simp [step_unload_inflight]

theorem step_reserve_unl (s : Sys) : (s.step .reserve).unl = s.unl := rfl

theorem step_release_unl (s : Sys) : (s.step .release).unl = s.unl := rfl

theorem step_entered (s : Sys) (a : Action) (h : s.entered) : (s.step a).entered := by
  cases a
  · rcases h with h | h
    · exact Or.inl h
    · exact Or.inr (by simp [Sys.step, h])
  · rcases h with h | h
    · exact Or.inl h
    · exact Or.inr (by simp [Sys.step, h])
  · refine Or.inr ?_
    rcases h with h | h
    · simp [Sys.step, h]
    · exact step_unload_unloading_mono s h

theorem run_entered (acts : List Action) :
    ∀ s : Sys, s.entered → (s.run acts).entered := by
  induction acts with
  | nil => intro s h; exact h
  | cons a as ih => intro s h; exact ih _ (step_entered s a h)

theorem step_unload_sets_flag (s : Sys) (h : s.entered) :
    (s.step .unload).pc.unloading = true := by
  rcases h with h | h
  · simp [Sys.step, h]
  · exact step_unload_unloading_mono s h

theorem unloadCheck_returned (pc : PluginClient) (count : Nat) :
    (pc.unloadCheck count).1 = .returned ↔ pc.inflight = 0 := by
  unfold PluginClient.unloadCheck
  split <;> simp_all

theorem unloadCheck_sleeping (pc : PluginClient) (count : Nat) (h : pc.inflight ≠ 0) :
    (pc.unloadCheck count).1 = .sleeping (count + 1) := by
  unfold PluginClient.unloadCheck
  simp [h]

theorem step_unload_returned (s : Sys) :
    (s.step .unload).unl = .returned ↔ s.pc.inflight = 0 := by
  unfold Sys.step
  cases s.unl <;>
    simp [PluginClient.unloadBegin, PluginClient.unloadPoll, unloadCheck_returned]

theorem step_unload_sleeping (s : Sys) (h : s.pc.inflight ≠ 0) :
    ∃ count, (s.step .unload).unl = .sleeping count := by
  unfold Sys.step
  cases hu : s.unl with
  | sleeping c =>
    exact ⟨c + 1, by simp [PluginClient.unloadPoll, unloadCheck_sleeping _ _ h]⟩
  | idle =>
    refine ⟨1, ?_⟩
    have h1 : ({ s.pc with unloading := true } : PluginClient).inflight ≠ 0 := h
    simp [PluginClient.unloadBegin, unloadCheck_sleeping _ _ h1]
  | returned =>
    refine ⟨1, ?_⟩
    have h1 : ({ s.pc with unloading := true } : PluginClient).inflight ≠ 0 := h
    simp [PluginClient.unloadBegin, unloadCheck_sleeping _ _ h1]

theorem run_snoc (s : Sys) (xs : List Action) (a : Action) :
    s.run (xs ++ [a]) = (s.run xs).step a := by
  rw [run_append]; rfl

/-- Whenever the caller of `Unload` is back from the call, the last step it
took is in the sequence, and right after that step the counter was zero. -/
theorem run_returned_last (s0 : Sys) (h0 : s0.unl ≠ .returned) (acts : List Action) :
    (s0.run acts).unl = .returned →
      ∃ front back, acts = front ++ Action.unload :: back ∧
        (∀ a ∈ back, a ≠ Action.unload) ∧
        (s0.run (front ++ [Action.unload])).unl = .returned ∧
        (s0.run (front ++ [Action.unload])).pc.inflight = 0 := by
  induction acts using List.reverseRecOn with
  | nil => intro h; exact absurd h h0
  | append_singleton xs a ih =>
    intro h
    rw [run_snoc] at h
    cases a with
    | unload =>
      refine ⟨xs, [], rfl, by simp, ?_, ?_⟩
      · rw [run_snoc]; exact h
      · rw [run_snoc, step_unload_inflight]
        exact (step_unload_returned _).1 h
    | reserve =>
      rw [step_reserve_unl] at h
      obtain ⟨front, back, he, hb, h1, h2⟩ := ih h
      refine ⟨front, back ++ [Action.reserve], by simp [he], ?_, h1, h2⟩
      intro a ha
      rcases List.mem_append.1 ha with ha | ha
      · exact hb a ha
      · simp at ha; simp [ha]
    | release =>
      rw [step_release_unl] at h
      obtain ⟨front, back, he, hb, h1, h2⟩ := ih h
      refine ⟨front, back ++ [Action.release], by simp [he], ?_, h1, h2⟩
      intro a ha
      rcases List.mem_append.1 ha with ha | ha
      · exact hb a ha
      · simp at ha; simp [ha]

/-! ### The claims about the barrier -/

/-- C1: on a client just built (counter 0, flag unset), after each call of any
finite sequence of `Reserve` and `Release` calls, with steps of `Unload`
anywhere in between, the in-flight counter equals the number of `Reserve`
calls that returned `nil` so far minus the number of `Release` calls so far. -/
theorem inflight_eq_successes_sub_releases (plugin : String) (acts : List Action) (n : Nat) :
    ((Sys.fresh plugin).run (acts.take n)).pc.inflight
      = (reserveSuccesses (Sys.fresh plugin) (acts.take n) : Int)
        - (releaseCalls (acts.take n) : Int) := by
  rw [run_inflight]
  simp [Sys.fresh, Sys.init, PluginClient.fresh]

/-- C2, as stated, fails: one `Release` on a client just built leaves the
in-flight counter at -1. -/
theorem release_on_fresh_is_negative :
    ((Sys.fresh "incrementer").run [Action.release]).pc.inflight = -1 := by
  decide

/-- C2, amended: on a client just built, for every finite sequence of calls in
which at no point the `Release` calls made so far outnumber the `Reserve`
calls that returned `nil` so far, the in-flight counter is never negative at
any point of the sequence. -/
theorem inflight_nonneg_of_paired (plugin : String) (acts : List Action)
    (h : ∀ n, releaseCalls (acts.take n) ≤ reserveSuccesses (Sys.fresh plugin) (acts.take n))
    (n : Nat) :
    0 ≤ ((Sys.fresh plugin).run (acts.take n)).pc.inflight := by
  rw [run_inflight]
  have := h n
  simp [Sys.fresh, Sys.init, PluginClient.fresh]
  exact_mod_cast this

/-- Witness for C2 (amended): two admitted calls, each released once. -/
theorem inflight_nonneg_of_paired_witness :
    0 ≤ ((Sys.fresh "incrementer").run
      ([Action.reserve, Action.reserve, Action.release, Action.release].take 3)).pc.inflight :=
  inflight_nonneg_of_paired "incrementer"
    [Action.reserve, Action.reserve, Action.release, Action.release]
    (by
      intro n
      rcases n with _ | _ | _ | _ | _ | n
      · decide
      · decide
      · decide
      · decide
      · decide
      · simp only [List.take_succ_cons, List.take_nil]
        decide)
    3

/-- C3: once `Unload` has been invoked on a client (whatever was called before),
every later `Reserve` returns an error and leaves the client, its in-flight
counter included, as it was, whatever `Reserve`, `Release` and `Unload` steps
happen in between. -/
theorem reserve_rejected_after_unload (pc0 : PluginClient) (before after : List Action) :
    (((Sys.init pc0).run (before ++ Action.unload :: after)).pc.Reserve.2.1 ≠ none) ∧
    (((Sys.init pc0).run (before ++ Action.unload :: after)).pc.Reserve.1
      = ((Sys.init pc0).run (before ++ Action.unload :: after)).pc) ∧
    ((((Sys.init pc0).run (before ++ Action.unload :: after)).step Action.reserve).pc.inflight
      = ((Sys.init pc0).run (before ++ Action.unload :: after)).pc.inflight) := by
  have hflag : ((Sys.init pc0).run (before ++ Action.unload :: after)).pc.unloading = true := by
    rw [run_append]
    exact run_unloading_mono after _
      (step_unload_sets_flag _ (run_entered before _ (Or.inl rfl)))
  refine ⟨?_, ?_, ?_⟩
  · intro h
    rw [Reserve_err_none] at h
    rw [h] at hflag
    exact Bool.false_ne_true hflag
  · simp [PluginClient.Reserve, hflag]
  · simp [Sys.step, hflag]

/-- C4: `Unload` returns only when the in-flight counter is zero.  In every
state reached by interleaving steps of `Unload` with `Reserve` and `Release`
calls of other callers: if the counter is nonzero the next step of `Unload`
leaves it asleep for another poll; if the next step of `Unload` returns, the
counter is zero at that point; and if `Unload` has returned, the step by which
it returned is in the history and read the counter as zero. -/
theorem unload_returns_only_at_zero (pc0 : PluginClient) (acts : List Action) :
    (((Sys.init pc0).run acts).pc.inflight ≠ 0 →
      ∃ count, (((Sys.init pc0).run acts).step Action.unload).unl = .sleeping count) ∧
    ((((Sys.init pc0).run acts).step Action.unload).unl = .returned →
      ((Sys.init pc0).run acts).pc.inflight = 0 ∧
      (((Sys.init pc0).run acts).step Action.unload).pc.inflight = 0) ∧
    (((Sys.init pc0).run acts).unl = .returned →
      ∃ front back, acts = front ++ Action.unload :: back ∧
        (∀ a ∈ back, a ≠ Action.unload) ∧
        ((Sys.init pc0).run (front ++ [Action.unload])).unl = .returned ∧
        ((Sys.init pc0).run (front ++ [Action.unload])).pc.inflight = 0) := by
  refine ⟨step_unload_sleeping _, ?_, ?_⟩
  · intro h
    have h0 := (step_unload_returned _).1 h
    exact ⟨h0, by rw [step_unload_inflight]; exact h0⟩
  · exact run_returned_last (Sys.init pc0) (by simp [Sys.init]) acts

/-- Witness for C4: with one call in flight `Unload` polls, and it returns on
the poll that follows the `Release`. -/
theorem unload_returns_only_at_zero_witness :
    (∃ count, (((Sys.init (PluginClient.fresh "incrementer")).run
        [Action.reserve, Action.unload]).step Action.unload).unl = .sleeping count) ∧
    (∃ front back, [Action.reserve, Action.unload, Action.release, Action.unload]
        = front ++ Action.unload :: back ∧
        (∀ a ∈ back, a ≠ Action.unload) ∧
        ((Sys.init (PluginClient.fresh "incrementer")).run
          (front ++ [Action.unload])).unl = .returned ∧
        ((Sys.init (PluginClient.fresh "incrementer")).run
          (front ++ [Action.unload])).pc.inflight = 0) :=
  ⟨(unload_returns_only_at_zero (PluginClient.fresh "incrementer")
      [Action.reserve, Action.unload]).1 (by decide),
   (unload_returns_only_at_zero (PluginClient.fresh "incrementer")
      [Action.reserve, Action.unload, Action.release, Action.unload]).2.2 (by decide)⟩

/-- C5: the unloading flag is never cleared.  `Reserve` and `Release` leave it
as it is, the entry of `Unload` sets it to true, a poll of `Unload` leaves it
as it is, and from a state where it is set every sequence of `Reserve`,
`Release` and `Unload` steps ends in a state where it is set. -/
theorem unloading_never_cleared :
    (∀ pc : PluginClient, pc.Reserve.1.unloading = pc.unloading) ∧
    (∀ pc : PluginClient, pc.Release.1.unloading = pc.unloading) ∧
    (∀ pc : PluginClient, pc.unloadBegin.1.unloading = true) ∧
    (∀ (pc : PluginClient) (count : Nat), (pc.unloadPoll count).1.unloading = pc.unloading) ∧
    (∀ (s : Sys) (acts : List Action), s.pc.unloading = true →
      (s.run acts).pc.unloading = true) :=
  ⟨Reserve_unloading, Release_unloading, unloadBegin_unloading, fun _ _ => rfl,
    fun s acts h => run_unloading_mono acts s h⟩

/-- Witness for C5: after `Unload` has begun on a client with one call in
flight, further calls leave the flag set. -/
theorem unloading_never_cleared_witness :
    (((Sys.fresh "incrementer").run [Action.reserve, Action.unload]).run
      [Action.reserve, Action.release, Action.unload, Action.release]).pc.unloading = true :=
  unloading_never_cleared.2.2.2.2
    ((Sys.fresh "incrementer").run [Action.reserve, Action.unload])
    [Action.reserve, Action.release, Action.unload, Action.release] (by decide)

/-- C6: `Reserve` returns an error exactly when the unloading flag is set at
the time of the call; when it returns `nil` the client afterwards is the
client before with the in-flight counter one higher and every other field
unchanged; when it returns an error the client is unchanged. -/
theorem Reserve_spec (pc : PluginClient) :
    (pc.Reserve.2.1 ≠ none ↔ pc.unloading = true) ∧
    (pc.Reserve.2.1 = none → pc.Reserve.1 = { pc with inflight := pc.inflight + 1 }) ∧
    (pc.Reserve.2.1 ≠ none → pc.Reserve.1 = pc) := by
  unfold PluginClient.Reserve
  cases h : pc.unloading <;> simp

/-- Witness for C6: an admitted call on a fresh client, a rejected one once
the flag is set. -/
theorem Reserve_spec_witness :
    (PluginClient.fresh "incrementer").Reserve.1
        = { PluginClient.fresh "incrementer" with inflight := 0 + 1 } ∧
    ({ PluginClient.fresh "incrementer" with unloading := true } : PluginClient).Reserve.1
        = { PluginClient.fresh "incrementer" with unloading := true } :=
  ⟨(Reserve_spec (PluginClient.fresh "incrementer")).2.1 (by decide),
   (Reserve_spec { PluginClient.fresh "incrementer" with unloading := true }).2.2 (by decide)⟩

/-! ## Properties of the handshake -/

theorem scanReady_no_sentinel (plugin : String) (lines : List String)
    (h : ∀ s ∈ lines, ¬ isSentinel s) :
    scanReady plugin lines
      = { failed := false, stopped := false,
          logged := lines.map (startupEntry plugin) } := by
  induction lines with
  | nil => rfl
  | cons s rest ih =>
    have hs : ¬ isSentinel s := h s (List.mem_cons_self _ _)
    have h1 : s ≠ "READY!" := fun e => hs (Or.inl e)
    have h2 : s ≠ "Failed" := fun e => hs (Or.inr e)
    have ih1 := ih (fun t ht => h t (List.mem_cons_of_mem _ ht))
    simp [scanReady, h1, h2, ih1]

theorem scanReady_ready (plugin : String) (front back : List String)
    (h : ∀ s ∈ front, ¬ isSentinel s) :
    scanReady plugin (front ++ "READY!" :: back)
      = { failed := false, stopped := true,
          logged := front.map (startupEntry plugin) } := by
  induction front with
  | nil => simp [scanReady]
  | cons s rest ih =>
    have hs : ¬ isSentinel s := h s (List.mem_cons_self _ _)
    have h1 : s ≠ "READY!" := fun e => hs (Or.inl e)
    have h2 : s ≠ "Failed" := fun e => hs (Or.inr e)
    have ih1 := ih (fun t ht => h t (List.mem_cons_of_mem _ ht))
    simp [scanReady, h1, h2, ih1]

theorem scanReady_failed (plugin : String) (front back : List String)
    (h : ∀ s ∈ front, ¬ isSentinel s) :
    scanReady plugin (front ++ "Failed" :: back)
      = { failed := true, stopped := true,
          logged := front.map (startupEntry plugin) } := by
  induction front with
  | nil => simp [scanReady]
  | cons s rest ih =>
    have hs : ¬ isSentinel s := h s (List.mem_cons_self _ _)
    have h1 : s ≠ "READY!" := fun e => hs (Or.inl e)
    have h2 : s ≠ "Failed" := fun e => hs (Or.inr e)
    have ih1 := ih (fun t ht => h t (List.mem_cons_of_mem _ ht))
    simp [scanReady, h1, h2, ih1]

theorem configCalls_append (xs ys : List Event) :
    configCalls (xs ++ ys) = configCalls xs ++ configCalls ys := by
  induction xs with
  | nil => rfl
  | cons e es ih => cases e <;> simp [configCalls, ih]

theorem configCalls_map_log (ls : List LogEntry) :
    configCalls (ls.map Event.log) = [] := by
  induction ls with
  | nil => rfl
  | cons e es ih => simp [configCalls, ih]

theorem stopCalls_append (xs ys : List Event) :
    stopCalls (xs ++ ys) = stopCalls xs + stopCalls ys := by
  induction xs with
  | nil => simp [stopCalls]
  | cons e es ih =>
    cases e <;> simp [stopCalls, ih]
    omega

theorem stopCalls_map_log (ls : List LogEntry) :
    stopCalls (ls.map Event.log) = 0 := by
  induction ls with
  | nil => rfl
  | cons e es ih => simp [stopCalls, ih]

/-- The events of `handshake` up to the exit of the read loop hold no `Config`
call. -/
theorem configCalls_soErr (plugin : String) (e : Option String) :
    configCalls (match e with
      | some err =>
        [Event.log ⟨.error, false, "Plugin " ++ plugin ++ ": start-up error: " ++ err⟩]
      | none => []) = [] := by
  cases e <;> rfl

theorem stopCalls_soErr (plugin : String) (e : Option String) :
    stopCalls (match e with
      | some err =>
        [Event.log ⟨.error, false, "Plugin " ++ plugin ++ ": start-up error: " ++ err⟩]
      | none => []) = 0 := by
  cases e <;> rfl

/-! ### The claims about the handshake -/

/-- C7, at the failing input: stdout yields "starting up" and then ends
without a sentinel, and the `Config` call succeeds; `NewPluginClient` goes on
as after "READY!", issues the `Config` call and returns a client with a nil
error. -/
theorem eof_without_sentinel_is_accepted :
    (loadIncrementer (Host.quiet ["starting up"] none)).theErr = none ∧
    (loadIncrementer (Host.quiet ["starting up"] none)).answer.isSome = true ∧
    configCalls (loadIncrementer (Host.quiet ["starting up"] none)).events
      = [[("level", "1")]] := by
  decide

/-- C9, at the failing input: the process is started, stdout yields
"starting up" and then "Failed"; `NewPluginClient` returns a nil client and
the handshake error, and `Stop` is not called. -/
theorem failed_sentinel_leaves_process_running :
    (loadIncrementer (Host.quiet ["starting up", "Failed"] none)).answer = none ∧
    (loadIncrementer (Host.quiet ["starting up", "Failed"] none)).theErr
      = some "Failed to start plugin - didn't respond cleanly" ∧
    Event.start ∈ (loadIncrementer (Host.quiet ["starting up", "Failed"] none)).events ∧
    stopCalls (loadIncrementer (Host.quiet ["starting up", "Failed"] none)).events = 0 := by
  decide

/-- C10: when the three pipes were created, the first sentinel line on stdout
is "READY!", after any number of other lines, and the `Config` call succeeds,
`NewPluginClient` returns a client (named after the plugin, nothing in flight,
not unloading) with a nil error, having issued `Config` exactly once, with the
caller's params, and without calling `Stop`. -/
theorem ready_sentinel_and_config_ok (h : Host)
    (pluginCommDir plugin apiURL staticURL token path : String) (params : Params)
    (hp : h.pipesOk) (hs : FirstSentinel h.soLines "READY!") (hc : h.config params = none) :
    (∃ pc, (NewPluginClient h pluginCommDir plugin apiURL staticURL token path params).answer
        = some pc ∧ pc.plugin = plugin ∧ pc.inflight = 0 ∧ pc.unloading = false) ∧
    (NewPluginClient h pluginCommDir plugin apiURL staticURL token path params).theErr = none ∧
    configCalls (NewPluginClient h pluginCommDir plugin apiURL staticURL token path params).events
      = [params] ∧
    stopCalls (NewPluginClient h pluginCommDir plugin apiURL staticURL token path params).events
      = 0 := by
  obtain ⟨h1, h2, h3⟩ := hp
  obtain ⟨_, front, back, he, hf⟩ := hs
  have hsc := scanReady_ready plugin front back hf
  rw [← he] at hsc
  simp [-List.map_map, NewPluginClient, h1, h2, h3, handshake, PluginClient.fresh, hsc,
    configure, hc, configCalls_append, configCalls_map_log, configCalls,
    stopCalls_append, stopCalls_map_log, stopCalls]

/-- Witness for C10: stdout yields "starting up" and then "READY!", and
`Config` succeeds. -/
theorem ready_sentinel_and_config_ok_witness :
    (∃ pc, (loadIncrementer (Host.quiet ["starting up", "READY!"] none)).answer = some pc ∧
        pc.plugin = "incrementer" ∧ pc.inflight = 0 ∧ pc.unloading = false) ∧
    (loadIncrementer (Host.quiet ["starting up", "READY!"] none)).theErr = none ∧
    configCalls (loadIncrementer (Host.quiet ["starting up", "READY!"] none)).events
      = [[("level", "1")]] ∧
    stopCalls (loadIncrementer (Host.quiet ["starting up", "READY!"] none)).events = 0 :=
  ready_sentinel_and_config_ok (Host.quiet ["starting up", "READY!"] none)
    "/var/run/drp" "incrementer" "https://127.0.0.1:8092" "http://127.0.0.1:8091" "token"
    "/var/lib/drp/plugins/incrementer" [("level", "1")]
    ⟨rfl, rfl, rfl⟩ ⟨Or.inl rfl, ["starting up"], [], rfl, by decide⟩ rfl

/-! ## More on the handshake: its phases and what they leave behind -/

theorem commands_append (xs ys : List Event) :
    commands (xs ++ ys) = commands xs ++ commands ys := by
  induction xs with
  | nil => rfl
  | cons e es ih => cases e <;> simp [commands, ih]

theorem commands_map_log (ls : List LogEntry) :
    commands (ls.map Event.log) = [] := by
  induction ls with
  | nil => rfl
  | cons e es ih => simp [commands, ih]

theorem infoLogs_append (xs ys : List Event) :
    infoLogs (xs ++ ys) = infoLogs xs ++ infoLogs ys := by
  induction xs with
  | nil => rfl
  | cons e es ih =>
    cases e with
    | log l => by_cases hl : l.level = .info <;> simp [infoLogs, hl, ih]
    | _ => simp [infoLogs, ih]

theorem infoLogs_map_log (ls : List LogEntry) (h : ∀ e ∈ ls, e.level = .info) :
    infoLogs (ls.map Event.log) = ls := by
  induction ls with
  | nil => rfl
  | cons e es ih =>
    have he : e.level = .info := h e (List.mem_cons_self _ _)
    simp [infoLogs, he, ih (fun t ht => h t (List.mem_cons_of_mem _ ht))]

/-- Every log call of the read loop is an `Infof` on the logger as it was
handed in, with the start-up format. -/
theorem scanReady_logged (plugin : String) (lines : List String) :
    ∀ e ∈ (scanReady plugin lines).logged, ∃ s ∈ lines, e = startupEntry plugin s := by
  induction lines with
  | nil => intro e he; simp [scanReady] at he
  | cons s rest ih =>
    intro e he
    unfold scanReady at he
    split at he
    · simp at he
    · split at he
      · simp at he
      · simp only [List.mem_cons] at he
        rcases he with he | he
        · exact ⟨s, List.mem_cons_self _ _, he⟩
        · obtain ⟨t, ht, hte⟩ := ih e he
          exact ⟨t, List.mem_cons_of_mem _ ht, hte⟩

theorem scanReady_logged_info (plugin : String) (lines : List String) :
    ∀ e ∈ (scanReady plugin lines).logged, e.level = .info := by
  intro e he
  obtain ⟨s, _, hs⟩ := scanReady_logged plugin lines e he
  rw [hs]; rfl

theorem soErr_events_observed (plugin : String) (e : Option String) :
    commands (match e with
      | some err =>
        [Event.log ⟨.error, false, "Plugin " ++ plugin ++ ": start-up error: " ++ err⟩]
      | none => []) = [] ∧
    infoLogs (match e with
      | some err =>
        [Event.log ⟨.error, false, "Plugin " ++ plugin ++ ": start-up error: " ++ err⟩]
      | none => []) = [] := by
  cases e <;> exact ⟨rfl, rfl⟩

theorem readEvents_observed (h : Host) (plugin : String) (ev : List Event) :
    configCalls (readEvents h plugin ev) = configCalls ev ∧
    stopCalls (readEvents h plugin ev) = stopCalls ev ∧
    commands (readEvents h plugin ev) = commands ev ∧
    infoLogs (readEvents h plugin ev) = infoLogs ev ++ (scanReady plugin h.soLines).logged := by
  unfold readEvents
  have hi := infoLogs_map_log _ (scanReady_logged_info plugin h.soLines)
  refine ⟨?_, ?_, ?_, ?_⟩
  · cases (scanReady plugin h.soLines).stopped <;>
      simp [-List.map_map, configCalls_append, configCalls_map_log, configCalls,
        configCalls_soErr]
  · cases (scanReady plugin h.soLines).stopped <;>
      simp [-List.map_map, stopCalls_append, stopCalls_map_log, stopCalls, stopCalls_soErr]
  · cases (scanReady plugin h.soLines).stopped <;>
      simp [-List.map_map, commands_append, commands_map_log, commands,
        (soErr_events_observed plugin h.soErr).1]
  · cases (scanReady plugin h.soLines).stopped <;>
      simp [-List.map_map, infoLogs_append, hi, infoLogs,
        (soErr_events_observed plugin h.soErr).2]

theorem start_mem_readEvents (h : Host) (plugin : String) (ev : List Event) :
    Event.start ∈ readEvents h plugin ev := by
  simp [readEvents]

theorem configure_observed (h : Host) (a : PluginClient) (plugin socketPath : String)
    (params : Params) (ev : List Event) :
    (configure h a plugin socketPath params ev).answer
      = some { a with client := some socketPath } ∧
    (configure h a plugin socketPath params ev).theErr = h.config params ∧
    configCalls (configure h a plugin socketPath params ev).events
      = configCalls ev ++ [params] ∧
    stopCalls (configure h a plugin socketPath params ev).events
      = stopCalls ev + (if h.config params = none then 0 else 1) ∧
    commands (configure h a plugin socketPath params ev).events = commands ev ∧
    infoLogs (configure h a plugin socketPath params ev).events = infoLogs ev := by
  unfold configure
  cases hc : h.config params <;>
    simp [configCalls_append, configCalls, stopCalls_append, stopCalls,
      commands_append, commands, infoLogs_append, infoLogs]

/-- The two ways out of `handshake`: after "Failed" the early return of
l.156-160, otherwise `configure`. -/
theorem handshake_eq (h : Host) (a : PluginClient) (plugin socketPath : String)
    (params : Params) (ev : List Event) (ha : a.plugin = plugin) :
    handshake h a plugin socketPath params ev
      = if (scanReady plugin h.soLines).failed then
          { answer := none, theErr := some "Failed to start plugin - didn't respond cleanly",
            events := readEvents h plugin ev ++
              [.log ⟨.error, false, "Failed to start plugin - didn't respond cleanly" ++ "\n"⟩] }
        else
          configure h { a with finished := some 2 } plugin socketPath params
            (readEvents h plugin ev) := by
  subst ha
  simp [handshake, readEvents]

/-- The events of `NewPluginClient` before the pipes are asked for. -/
theorem NewPluginClient_pipes (h : Host)
    (pluginCommDir plugin apiURL staticURL token path : String) (params : Params) :
    NewPluginClient h pluginCommDir plugin apiURL staticURL token path params
      = match h.stderrPipe, h.stdoutPipe, h.stdinPipe with
        | none, none, none =>
          handshake h
            { PluginClient.fresh plugin with
              cmd := some { path := path,
                            args := ["listen", pluginCommDir ++ "/" ++ plugin ++ ".toPlugin",
                                     pluginCommDir ++ "/" ++ plugin ++ ".fromPlugin"],
                            env := h.environ ++ ["RS_ENDPOINT=" ++ apiURL]
                              ++ ["RS_FILESERVER=" ++ staticURL] ++ ["RS_TOKEN=" ++ token] } }
            plugin (pluginCommDir ++ "/" ++ plugin ++ ".toPlugin") params
            [.log ⟨.debug, false, "Initialzing Plugin: " ++ plugin ++ "\n"⟩,
             .pluginServer (pluginCommDir ++ "/" ++ plugin ++ ".fromPlugin"),
             .command { path := path,
                        args := ["listen", pluginCommDir ++ "/" ++ plugin ++ ".toPlugin",
                                 pluginCommDir ++ "/" ++ plugin ++ ".fromPlugin"],
                        env := h.environ ++ ["RS_ENDPOINT=" ++ apiURL]
                          ++ ["RS_FILESERVER=" ++ staticURL] ++ ["RS_TOKEN=" ++ token] },
             .closeStdin]
        | some err2, _, _ | none, some err2, _ | none, none, some err2 =>
          { answer := none, theErr := some err2,
            events := [.log ⟨.debug, false, "Initialzing Plugin: " ++ plugin ++ "\n"⟩,
             .pluginServer (pluginCommDir ++ "/" ++ plugin ++ ".fromPlugin"),
             .command { path := path,
                        args := ["listen", pluginCommDir ++ "/" ++ plugin ++ ".toPlugin",
                                 pluginCommDir ++ "/" ++ plugin ++ ".fromPlugin"],
                        env := h.environ ++ ["RS_ENDPOINT=" ++ apiURL]
                          ++ ["RS_FILESERVER=" ++ staticURL] ++ ["RS_TOKEN=" ++ token] }] } := by
  unfold NewPluginClient
  cases h.stderrPipe <;> cases h.stdoutPipe <;> cases h.stdinPipe <;> rfl

/-- The result of `cmd.Start()` has no part in what `NewPluginClient` does. -/
theorem NewPluginClient_ignores_start (h : Host) (e : Option String)
    (pluginCommDir plugin apiURL staticURL token path : String) (params : Params) :
    NewPluginClient { h with start := e } pluginCommDir plugin apiURL staticURL token path params
      = NewPluginClient h pluginCommDir plugin apiURL staticURL token path params := rfl

theorem NewPluginClient_of_pipesOk (h : Host)
    (pluginCommDir plugin apiURL staticURL token path : String) (params : Params)
    (hp : h.pipesOk) :
    NewPluginClient h pluginCommDir plugin apiURL staticURL token path params
      = handshake h
          { PluginClient.fresh plugin with
            cmd := some (pluginCmd h pluginCommDir plugin apiURL staticURL token path) }
          plugin (pluginCommDir ++ "/" ++ plugin ++ ".toPlugin") params
          (setupEvents h pluginCommDir plugin apiURL staticURL token path ++ [.closeStdin]) := by
  obtain ⟨h1, h2, h3⟩ := hp
  rw [NewPluginClient_pipes, h1, h2, h3]
  rfl

theorem NewPluginClient_of_not_pipesOk (h : Host)
    (pluginCommDir plugin apiURL staticURL token path : String) (params : Params)
    (hp : ¬ h.pipesOk) :
    (NewPluginClient h pluginCommDir plugin apiURL staticURL token path params).answer = none ∧
    (NewPluginClient h pluginCommDir plugin apiURL staticURL token path params).theErr ≠ none ∧
    (NewPluginClient h pluginCommDir plugin apiURL staticURL token path params).events
      = setupEvents h pluginCommDir plugin apiURL staticURL token path := by
  rw [NewPluginClient_pipes]
  unfold Host.pipesOk at hp
  cases h1 : h.stderrPipe <;> cases h2 : h.stdoutPipe <;> cases h3 : h.stdinPipe <;>
    simp_all [setupEvents, pluginCmd]

/-- After a read loop that did not end on "Failed", with the pipes created,
`NewPluginClient` is `configure` on what was done so far. -/
theorem NewPluginClient_passed (h : Host)
    (pluginCommDir plugin apiURL staticURL token path : String) (params : Params)
    (hp : h.pipesOk) (hf : (scanReady plugin h.soLines).failed = false) :
    NewPluginClient h pluginCommDir plugin apiURL staticURL token path params
      = configure h
          { PluginClient.fresh plugin with
            cmd := some (pluginCmd h pluginCommDir plugin apiURL staticURL token path),
            finished := some 2 }
          plugin (pluginCommDir ++ "/" ++ plugin ++ ".toPlugin") params
          (readEvents h plugin
            (setupEvents h pluginCommDir plugin apiURL staticURL token path ++ [.closeStdin])) := by
  rw [NewPluginClient_of_pipesOk h _ _ _ _ _ _ _ hp]
  refine (handshake_eq h _ plugin _ params _ rfl).trans ?_
  rw [hf]
  rfl

/-- After a read loop that ended on "Failed", with the pipes created,
`NewPluginClient` returns at l.159. -/
theorem NewPluginClient_failed (h : Host)
    (pluginCommDir plugin apiURL staticURL token path : String) (params : Params)
    (hp : h.pipesOk) (hf : (scanReady plugin h.soLines).failed = true) :
    NewPluginClient h pluginCommDir plugin apiURL staticURL token path params
      = { answer := none, theErr := some "Failed to start plugin - didn't respond cleanly",
          events := readEvents h plugin
              (setupEvents h pluginCommDir plugin apiURL staticURL token path ++ [.closeStdin])
            ++ [.log ⟨.error, false,
                  "Failed to start plugin - didn't respond cleanly" ++ "\n"⟩] } := by
  rw [NewPluginClient_of_pipesOk h _ _ _ _ _ _ _ hp]
  refine (handshake_eq h _ plugin _ params _ rfl).trans ?_
  rw [hf]
  rfl

theorem setupEvents_observed (h : Host)
    (pluginCommDir plugin apiURL staticURL token path : String) :
    configCalls (setupEvents h pluginCommDir plugin apiURL staticURL token path) = [] ∧
    stopCalls (setupEvents h pluginCommDir plugin apiURL staticURL token path) = 0 ∧
    commands (setupEvents h pluginCommDir plugin apiURL staticURL token path)
      = [pluginCmd h pluginCommDir plugin apiURL staticURL token path] ∧
    infoLogs (setupEvents h pluginCommDir plugin apiURL staticURL token path) = [] := by
  simp [setupEvents, configCalls, stopCalls, commands, infoLogs]

/-- What every run of `NewPluginClient` leaves behind, by the way it ends. -/
theorem NewPluginClient_observed (h : Host)
    (pluginCommDir plugin apiURL staticURL token path : String) (params : Params) :
    commands (NewPluginClient h pluginCommDir plugin apiURL staticURL token path params).events
      = [pluginCmd h pluginCommDir plugin apiURL staticURL token path] ∧
    infoLogs (NewPluginClient h pluginCommDir plugin apiURL staticURL token path params).events
      = (if h.pipesOk then (scanReady plugin h.soLines).logged else []) ∧
    Event.pluginServer (pluginCommDir ++ "/" ++ plugin ++ ".fromPlugin")
      ∈ (NewPluginClient h pluginCommDir plugin apiURL staticURL token path params).events ∧
    (∀ pc, (NewPluginClient h pluginCommDir plugin apiURL staticURL token path params).answer
        = some pc →
      pc.cmd = some (pluginCmd h pluginCommDir plugin apiURL staticURL token path) ∧
      pc.client = some (pluginCommDir ++ "/" ++ plugin ++ ".toPlugin")) := by
  have hs := setupEvents_observed h pluginCommDir plugin apiURL staticURL token path
  by_cases hp : h.pipesOk
  · have hr := readEvents_observed h plugin
      (setupEvents h pluginCommDir plugin apiURL staticURL token path ++ [.closeStdin])
    have hmem : Event.pluginServer (pluginCommDir ++ "/" ++ plugin ++ ".fromPlugin")
        ∈ readEvents h plugin
          (setupEvents h pluginCommDir plugin apiURL staticURL token path ++ [.closeStdin]) := by
      simp [readEvents, setupEvents]
    cases hf : (scanReady plugin h.soLines).failed
    · rw [NewPluginClient_passed h _ _ _ _ _ _ _ hp hf]
      have hc := configure_observed h
        { PluginClient.fresh plugin with
            cmd := some (pluginCmd h pluginCommDir plugin apiURL staticURL token path),
            finished := some 2 }
        plugin (pluginCommDir ++ "/" ++ plugin ++ ".toPlugin") params
        (readEvents h plugin
          (setupEvents h pluginCommDir plugin apiURL staticURL token path ++ [.closeStdin]))
      refine ⟨?_, ?_, ?_, ?_⟩
      · rw [hc.2.2.2.2.1, hr.2.2.1, commands_append, hs.2.2.1]; rfl
      · rw [hc.2.2.2.2.2, hr.2.2.2, infoLogs_append, hs.2.2.2]; simp [hp, infoLogs]
      · unfold configure
        cases h.config params <;> simp [hmem]
      · intro pc hpc
        rw [hc.1] at hpc
        cases hpc
        exact ⟨rfl, rfl⟩
    · rw [NewPluginClient_failed h _ _ _ _ _ _ _ hp hf]
      refine ⟨?_, ?_, ?_, ?_⟩
      · simp only [commands_append, hr.2.2.1, hs.2.2.1]; rfl
      · simp only [infoLogs_append, hr.2.2.2, hs.2.2.2]; simp [hp, infoLogs]
      · simp [hmem]
      · intro pc hpc; cases hpc
  · obtain ⟨ha, _, he⟩ := NewPluginClient_of_not_pipesOk h pluginCommDir plugin apiURL
      staticURL token path params hp
    refine ⟨?_, ?_, ?_, ?_⟩
    · rw [he]; exact hs.2.2.1
    · rw [he, hs.2.2.2]; simp [hp]
    · rw [he]; simp [setupEvents]
    · intro pc hpc; rw [ha] at hpc; cases hpc

theorem scanReady_failed_iff (plugin : String) (lines : List String) :
    (scanReady plugin lines).failed = true ↔ FirstSentinel lines "Failed" := by
  constructor
  · induction lines with
    | nil => intro hf; simp [scanReady] at hf
    | cons s rest ih =>
      intro hf
      unfold scanReady at hf
      by_cases h1 : s = "READY!"
      · simp [h1] at hf
      · by_cases h2 : s = "Failed"
        · exact ⟨Or.inr rfl, [], rest, by simp [h2], by simp⟩
        · simp only [h1, h2, if_false] at hf
          obtain ⟨hsent, front, back, he, hfr⟩ := ih hf
          refine ⟨hsent, s :: front, back, by simp [he], ?_⟩
          intro t ht
          rcases List.mem_cons.1 ht with ht | ht
          · rw [ht]; exact fun hc => hc.elim h1 h2
          · exact hfr t ht
  · rintro ⟨_, front, back, he, hfr⟩
    rw [he, scanReady_failed plugin front back hfr]

/-- With the pipes created and a read loop that did not end on "Failed":
the client is returned, the error is the one of `Config`, `Config` was called
once with the caller's params, and `Stop` once exactly when `Config` failed. -/
theorem NewPluginClient_passed_observed (h : Host)
    (pluginCommDir plugin apiURL staticURL token path : String) (params : Params)
    (hp : h.pipesOk) (hf : (scanReady plugin h.soLines).failed = false) :
    (NewPluginClient h pluginCommDir plugin apiURL staticURL token path params).answer ≠ none ∧
    (NewPluginClient h pluginCommDir plugin apiURL staticURL token path params).theErr
      = h.config params ∧
    configCalls (NewPluginClient h pluginCommDir plugin apiURL staticURL token path params).events
      = [params] ∧
    stopCalls (NewPluginClient h pluginCommDir plugin apiURL staticURL token path params).events
      = (if h.config params = none then 0 else 1) := by
  rw [NewPluginClient_passed h _ _ _ _ _ _ _ hp hf]
  have hs := setupEvents_observed h pluginCommDir plugin apiURL staticURL token path
  have hr := readEvents_observed h plugin
    (setupEvents h pluginCommDir plugin apiURL staticURL token path ++ [.closeStdin])
  have hc := configure_observed h
    { PluginClient.fresh plugin with
        cmd := some (pluginCmd h pluginCommDir plugin apiURL staticURL token path),
        finished := some 2 }
    plugin (pluginCommDir ++ "/" ++ plugin ++ ".toPlugin") params
    (readEvents h plugin
      (setupEvents h pluginCommDir plugin apiURL staticURL token path ++ [.closeStdin]))
  refine ⟨?_, hc.2.1, ?_, ?_⟩
  · rw [hc.1]; simp
  · rw [hc.2.2.1, hr.1, configCalls_append, hs.1]; rfl
  · rw [hc.2.2.2.1, hr.2.1, stopCalls_append, hs.2.1]; simp [stopCalls]

/-! ### The claims about the outcome of `NewPluginClient` -/

/-- C11: when the handshake succeeds (pipes created, first sentinel "READY!")
and the `Config` call returns an error e, `NewPluginClient` calls `Stop`
exactly once and returns e as its error; when `Config` succeeds, `Stop` is not
called and the error returned is nil. -/
theorem config_error_stops_once (h : Host)
    (pluginCommDir plugin apiURL staticURL token path : String) (params : Params)
    (hp : h.pipesOk) (hs : FirstSentinel h.soLines "READY!") :
    (∀ e, h.config params = some e →
      (NewPluginClient h pluginCommDir plugin apiURL staticURL token path params).theErr
        = some e ∧
      stopCalls (NewPluginClient h pluginCommDir plugin apiURL staticURL token path params).events
        = 1) ∧
    (h.config params = none →
      (NewPluginClient h pluginCommDir plugin apiURL staticURL token path params).theErr
        = none ∧
      stopCalls (NewPluginClient h pluginCommDir plugin apiURL staticURL token path params).events
        = 0) := by
  obtain ⟨_, front, back, he, hfr⟩ := hs
  have hf : (scanReady plugin h.soLines).failed = false := by
    rw [he, scanReady_ready plugin front back hfr]
  obtain ⟨_, h2, _, h4⟩ := NewPluginClient_passed_observed h pluginCommDir plugin apiURL
    staticURL token path params hp hf
  constructor
  · intro e hc
    rw [h2, h4, hc]
    exact ⟨rfl, by simp⟩
  · intro hc
    rw [h2, h4, hc]
    exact ⟨rfl, by simp⟩

/-- Witness for C11: "starting up", "READY!", then `Config` is refused. -/
theorem config_error_stops_once_witness :
    (loadIncrementer (Host.quiet ["starting up", "READY!"] (some "refused"))).theErr
      = some "refused" ∧
    stopCalls (loadIncrementer (Host.quiet ["starting up", "READY!"] (some "refused"))).events
      = 1 :=
  (config_error_stops_once (Host.quiet ["starting up", "READY!"] (some "refused"))
    "/var/run/drp" "incrementer" "https://127.0.0.1:8092" "http://127.0.0.1:8091" "token"
    "/var/lib/drp/plugins/incrementer" [("level", "1")]
    ⟨rfl, rfl, rfl⟩ ⟨Or.inl rfl, ["starting up"], [], rfl, by decide⟩).1 "refused" rfl

/-- C12, as stated, fails: after "starting up", "READY!" and a `Config` call
that is refused, `NewPluginClient` returns both a client and an error. -/
theorem config_error_returns_instance_and_error :
    (loadIncrementer (Host.quiet ["starting up", "READY!"] (some "refused"))).answer.isSome
      = true ∧
    (loadIncrementer (Host.quiet ["starting up", "READY!"] (some "refused"))).theErr
      = some "refused" := by
  decide

/-- C12, amended: for every input, a nil client comes with a non-nil error (a
nil error comes with a client); a client and an error are returned together
exactly when the pipes were created, the first sentinel read was not "Failed"
and the `Config` call failed, and then `Stop` was called once on that client
and the error is the one of `Config`. -/
theorem nil_instance_has_error (h : Host)
    (pluginCommDir plugin apiURL staticURL token path : String) (params : Params) :
    ((NewPluginClient h pluginCommDir plugin apiURL staticURL token path params).answer = none →
      (NewPluginClient h pluginCommDir plugin apiURL staticURL token path params).theErr
        ≠ none) ∧
    (((NewPluginClient h pluginCommDir plugin apiURL staticURL token path params).answer ≠ none ∧
      (NewPluginClient h pluginCommDir plugin apiURL staticURL token path params).theErr ≠ none)
      ↔ (h.pipesOk ∧ ¬ FirstSentinel h.soLines "Failed" ∧ h.config params ≠ none)) ∧
    ((NewPluginClient h pluginCommDir plugin apiURL staticURL token path params).answer ≠ none →
      (NewPluginClient h pluginCommDir plugin apiURL staticURL token path params).theErr ≠ none →
      stopCalls (NewPluginClient h pluginCommDir plugin apiURL staticURL token path params).events
        = 1 ∧
      (NewPluginClient h pluginCommDir plugin apiURL staticURL token path params).theErr
        = h.config params) := by
  by_cases hp : h.pipesOk
  · cases hf : (scanReady plugin h.soLines).failed
    · have hnf : ¬ FirstSentinel h.soLines "Failed" := by
        rw [← scanReady_failed_iff plugin, hf]; simp
      obtain ⟨h1, h2, _, h4⟩ := NewPluginClient_passed_observed h pluginCommDir plugin apiURL
        staticURL token path params hp hf
      refine ⟨fun ha => absurd ha h1, ?_, ?_⟩
      · rw [h2]
        exact ⟨fun hh => ⟨hp, hnf, hh.2⟩, fun hh => ⟨h1, hh.2.2⟩⟩
      · intro _ he
        rw [h2] at he
        rw [h4, h2]
        exact ⟨by simp [he], rfl⟩
    · have hyf : FirstSentinel h.soLines "Failed" := (scanReady_failed_iff plugin _).1 hf
      rw [NewPluginClient_failed h _ _ _ _ _ _ _ hp hf]
      refine ⟨fun _ => by simp, ?_, ?_⟩
      · constructor
        · intro hh; exact absurd rfl hh.1
        · intro hh; exact absurd hyf hh.2.1
      · intro hh; exact absurd rfl hh
  · obtain ⟨ha, he, _⟩ := NewPluginClient_of_not_pipesOk h pluginCommDir plugin apiURL
      staticURL token path params hp
    refine ⟨fun _ => he, ?_, ?_⟩
    · constructor
      · intro hh; exact absurd ha hh.1
      · intro hh; exact absurd hh.1 hp
    · intro hh; exact absurd ha hh

/-- Witness for C12 (amended): the stderr pipe cannot be created, and the nil
client comes with that error. -/
theorem nil_instance_has_error_witness :
    (loadIncrementer { Host.quiet [] none with stderrPipe := some "too many open files" }).theErr
      ≠ none :=
  (nil_instance_has_error { Host.quiet [] none with stderrPipe := some "too many open files" }
    "/var/run/drp" "incrementer" "https://127.0.0.1:8092" "http://127.0.0.1:8091" "token"
    "/var/lib/drp/plugins/incrementer" [("level", "1")]).1 (by decide)

/-- C13, at the failing input: `cmd.Start()` fails, and `NewPluginClient`
still runs the read loop, starts the stdout reader and issues the `Config`
call; the error it returns is the one of `Config`, not the one of
`cmd.Start()`. -/
theorem start_error_is_ignored :
    Host.spawnFails.start ≠ none ∧
    Event.goReadLog "so" ∈ (loadIncrementer Host.spawnFails).events ∧
    configCalls (loadIncrementer Host.spawnFails).events = [[("level", "1")]] ∧
    (loadIncrementer Host.spawnFails).theErr = Host.spawnFails.config [("level", "1")] ∧
    (loadIncrementer Host.spawnFails).theErr ≠ Host.spawnFails.start := by
  decide

/-- The Info entries of `readLog` are its lines in the forwarding format. -/
theorem infoLogs_readLog (pc : PluginClient) (name : String) (lines : List String)
    (err : Option String) :
    infoLogs (readLog pc name lines err)
      = lines.map (fun s =>
          ⟨.info, true, "Plugin " ++ pc.plugin ++ "(" ++ name ++ "): " ++ s⟩) := by
  have hmap : lines.map (fun s =>
        Event.log ⟨.info, true, "Plugin " ++ pc.plugin ++ "(" ++ name ++ "): " ++ s⟩)
      = (lines.map (fun s =>
        (⟨.info, true, "Plugin " ++ pc.plugin ++ "(" ++ name ++ "): " ++ s⟩ : LogEntry))).map
          Event.log := by
    simp
  have hlev : ∀ e ∈ lines.map (fun s =>
        (⟨.info, true, "Plugin " ++ pc.plugin ++ "(" ++ name ++ "): " ++ s⟩ : LogEntry)),
      e.level = .info := by
    intro e he
    obtain ⟨s, _, hs⟩ := List.mem_map.1 he
    rw [← hs]
  have hi := infoLogs_map_log _ hlev
  unfold readLog
  rw [hmap]
  cases err <;> simp [-List.map_map, infoLogs_append, infoLogs, hi]

/-! ### The claims about the lines read and forwarded -/

/-- C15, as stated, fails: the start-up line "starting up" is logged by a call
on the logger that does not go through `NoPublish()`. -/
theorem startup_line_logged_without_NoPublish :
    Event.log ⟨.info, false, "Plugin incrementer: start-up: starting up"⟩
      ∈ (loadIncrementer (Host.quiet ["starting up", "READY!"] none)).events ∧
    Event.log ⟨.info, true, "Plugin incrementer: start-up: starting up"⟩
      ∉ (loadIncrementer (Host.quiet ["starting up", "READY!"] none)).events := by
  decide

/-- C15, amended: every entry by which `readLog` forwards a line of stderr or
stdout is logged through `NoPublish()`; the start-up lines read during the
handshake are logged on the logger handed to `NewPluginClient` as it is,
without `NoPublish()`. -/
theorem readLog_lines_use_NoPublish (pc : PluginClient) (name : String) (lines : List String)
    (err : Option String) (h : Host)
    (pluginCommDir plugin apiURL staticURL token path : String) (params : Params) :
    (∀ e ∈ infoLogs (readLog pc name lines err), e.noPublish = true) ∧
    (∀ e ∈ infoLogs
        (NewPluginClient h pluginCommDir plugin apiURL staticURL token path params).events,
      e.noPublish = false) := by
  constructor
  · intro e he
    rw [infoLogs_readLog] at he
    obtain ⟨s, _, hs⟩ := List.mem_map.1 he
    rw [← hs]
  · intro e he
    rw [(NewPluginClient_observed h pluginCommDir plugin apiURL staticURL token path
      params).2.1] at he
    by_cases hp : h.pipesOk
    · rw [if_pos hp] at he
      obtain ⟨s, _, hs⟩ := scanReady_logged plugin h.soLines e he
      rw [hs]; rfl
    · rw [if_neg hp] at he
      cases he

/-- Witness for C15 (amended): one stderr line forwarded by `readLog`, one
start-up line logged by the handshake. -/
theorem readLog_lines_use_NoPublish_witness :
    (⟨.info, true, "Plugin incrementer(se): warming up"⟩ : LogEntry).noPublish = true ∧
    (⟨.info, false, "Plugin incrementer: start-up: starting up"⟩ : LogEntry).noPublish = false :=
  ⟨(readLog_lines_use_NoPublish (PluginClient.fresh "incrementer") "se" ["warming up"] none
      (Host.quiet ["starting up", "READY!"] none)
      "/var/run/drp" "incrementer" "https://127.0.0.1:8092" "http://127.0.0.1:8091" "token"
      "/var/lib/drp/plugins/incrementer" [("level", "1")]).1 _ (by decide),
   (readLog_lines_use_NoPublish (PluginClient.fresh "incrementer") "se" ["warming up"] none
      (Host.quiet ["starting up", "READY!"] none)
      "/var/run/drp" "incrementer" "https://127.0.0.1:8092" "http://127.0.0.1:8091" "token"
      "/var/lib/drp/plugins/incrementer" [("level", "1")]).2 _ (by decide)⟩

/-- C16: for every comm directory d, plugin name p and executable path, the
one command `NewPluginClient` builds runs that path with exactly the arguments
"listen", "d/p.toPlugin", "d/p.fromPlugin"; the second is the socket the
returned client dials, the third the socket handed to `pluginServer`. -/
theorem plugin_command_args (h : Host)
    (pluginCommDir plugin apiURL staticURL token path : String) (params : Params) :
    (commands (NewPluginClient h pluginCommDir plugin apiURL staticURL token path
        params).events).map (fun c => (c.path, c.args))
      = [(path, ["listen", pluginCommDir ++ "/" ++ plugin ++ ".toPlugin",
                 pluginCommDir ++ "/" ++ plugin ++ ".fromPlugin"])] ∧
    Event.pluginServer (pluginCommDir ++ "/" ++ plugin ++ ".fromPlugin")
      ∈ (NewPluginClient h pluginCommDir plugin apiURL staticURL token path params).events ∧
    (∀ pc, (NewPluginClient h pluginCommDir plugin apiURL staticURL token path params).answer
        = some pc →
      pc.client = some (pluginCommDir ++ "/" ++ plugin ++ ".toPlugin") ∧
      pc.cmd.map (fun c => (c.path, c.args))
        = some (path, ["listen", pluginCommDir ++ "/" ++ plugin ++ ".toPlugin",
                       pluginCommDir ++ "/" ++ plugin ++ ".fromPlugin"])) := by
  obtain ⟨h1, _, h3, h4⟩ := NewPluginClient_observed h pluginCommDir plugin apiURL staticURL
    token path params
  refine ⟨by rw [h1]; rfl, h3, ?_⟩
  intro pc hpc
  obtain ⟨hc, hd⟩ := h4 pc hpc
  exact ⟨hd, by rw [hc]; rfl⟩

/-! ## Properties of SecureData -/

theorem Validate_eq_none (s : SecureData) :
    s.Validate = none ↔ s.Key.length = 32 ∧ s.Nonce.length = 24 ∧ 16 ≤ s.Payload.length := by
  unfold SecureData.Validate boxOverhead
  split_ifs <;> simp_all

/-- C19: `Validate` returns `BadKey` exactly when Key is not 32 bytes long;
otherwise `BadNonce` exactly when Nonce is not 24 bytes long; otherwise
`Corrupt` exactly when Payload is shorter than 16 bytes; otherwise nil, so it
returns nil exactly when the three lengths are 32, 24 and at least 16.  When
`Validate` fails, `Open` returns that error and no data without calling
`box.Open`. -/
theorem Validate_spec (s : SecureData) (c : Crypto) (targetPrivateKey : Bytes 32) :
    (s.Validate = some BadKey ↔ s.Key.length ≠ 32) ∧
    (s.Key.length = 32 → (s.Validate = some BadNonce ↔ s.Nonce.length ≠ 24)) ∧
    (s.Key.length = 32 → s.Nonce.length = 24 →
      (s.Validate = some Corrupt ↔ s.Payload.length < 16)) ∧
    (s.Validate = none ↔ s.Key.length = 32 ∧ s.Nonce.length = 24 ∧ 16 ≤ s.Payload.length) ∧
    (∀ e, s.Validate = some e →
      s.Open c targetPrivateKey = { res := none, err := some e, boxOpenCalls := 0 }) := by
  have hkn : BadKey ≠ BadNonce := by decide
  have hkc : BadKey ≠ Corrupt := by decide
  have hnc : BadNonce ≠ Corrupt := by decide
  refine ⟨?_, ?_, ?_, Validate_eq_none s, ?_⟩
  · unfold SecureData.Validate boxOverhead
    split_ifs <;> simp_all [Ne.symm hkn, Ne.symm hkc]
  · intro hk
    unfold SecureData.Validate boxOverhead
    split_ifs <;> simp_all [Ne.symm hnc]
  · intro hk hn
    unfold SecureData.Validate boxOverhead
    split_ifs <;> simp_all
  · intro e he
    unfold SecureData.Open
    rw [he]

/-- Witness for C19: a 31-byte key is a `BadKey`, and `Open` hands that error
on without calling `box.Open`. -/
theorem Validate_spec_witness :
    SecureData.shortKey.Open Crypto.fixed zeroKey
      = { res := none, err := some BadKey, boxOpenCalls := 0 } :=
  (Validate_spec SecureData.shortKey Crypto.fixed zeroKey).2.2.2.2 BadKey (by decide)

/-- C20: given that `box.Seal(nil, ...)` returns a box `box.Overhead` bytes
longer than its message (the contract of the library), after every `Seal` of
data d that returns nil the SecureData has a 32-byte Key, a 24-byte Nonce and
a Payload exactly 16 bytes longer than d, so `Validate` on it returns nil. -/
theorem Seal_then_Validate (s : SecureData) (c : Crypto) (peerPublicKey : Bytes 32)
    (d : List Byte)
    (hbox : ∀ msg nonce pk sk, (c.boxSeal msg nonce pk sk).length = msg.length + boxOverhead)
    (hok : (s.Seal c peerPublicKey d).2 = none) :
    (s.Seal c peerPublicKey d).1.Key.length = 32 ∧
    (s.Seal c peerPublicKey d).1.Nonce.length = 24 ∧
    (s.Seal c peerPublicKey d).1.Payload.length = d.length + 16 ∧
    (s.Seal c peerPublicKey d).1.Validate = none := by
  unfold SecureData.Seal at hok ⊢
  cases hg : c.generateKey with
  | error e => simp [hg] at hok
  | ok keys =>
    obtain ⟨pub, priv⟩ := keys
    cases hn : c.readNonce with
    | error e => simp [hg, hn] at hok
    | ok nonce =>
      have hp := hbox d nonce peerPublicKey priv
      simp only [boxOverhead] at hp
      refine ⟨pub.property, nonce.property, hp, ?_⟩
      rw [Validate_eq_none]
      exact ⟨pub.property, nonce.property, by simp only [hp]; omega⟩

/-- Witness for C20: sealing three bytes with the stand-in library. -/
theorem Seal_then_Validate_witness :
    (SecureData.zero.Seal Crypto.fixed zeroKey [1, 2, 3]).1.Key.length = 32 ∧
    (SecureData.zero.Seal Crypto.fixed zeroKey [1, 2, 3]).1.Nonce.length = 24 ∧
    (SecureData.zero.Seal Crypto.fixed zeroKey [1, 2, 3]).1.Payload.length
      = [1, 2, 3].length + 16 ∧
    (SecureData.zero.Seal Crypto.fixed zeroKey [1, 2, 3]).1.Validate = none :=
  Seal_then_Validate SecureData.zero Crypto.fixed zeroKey [1, 2, 3]
    (by intro msg _ _ _; simp only [Crypto.fixed, boxOverhead, List.length_append,
      List.length_replicate, Nat.add_comm])
    rfl

/-! ## Properties of jobs, tokens and the command line -/

/-- C21, as stated, fails: a job whose ExitState is "failed", which is not
empty and none of "reboot", "poweroff", "stop", "complete", gets no
"Invalid ExitState" error from `Validate`. -/
theorem exit_state_failed_is_accepted :
    Job.failedExit.ExitState ≠ "" ∧
    Job.failedExit.ExitState ∉ ["reboot", "poweroff", "stop", "complete"] ∧
    ErrArg.errorf "Invalid ExitState `%s`" Job.failedExit.ExitState
      ∉ Job.failedExit.Validate := by
  decide

/-- C21, amended: `Validate` accepts the final disposition of a job exactly
when ExitState is empty or one of "reboot", "poweroff", "stop", "complete",
"failed": for every job it adds the "Invalid ExitState" error if and only if
ExitState is not empty and none of those five values. -/
theorem exit_state_error_iff (j : Job) :
    ErrArg.errorf "Invalid ExitState `%s`" j.ExitState ∈ j.Validate
      ↔ (j.ExitState ≠ "" ∧
          j.ExitState ∉ ["reboot", "poweroff", "stop", "complete", "failed"]) := by
  unfold Job.Validate
  simp only [List.mem_append, List.mem_cons, List.mem_singleton, List.not_mem_nil,
    reduceCtorEq, false_or, or_false, not_or]
  constructor
  · rintro (h | h)
    · split_ifs at h <;> simp_all
    · split_ifs at h <;> simp_all
  · rintro ⟨h1, h2, h3, h4, h5, h6⟩
    right
    simp [h1, h2, h3, h4, h5, h6]

/-- Witness for C21 (amended): the disposition "halted" is refused. -/
theorem exit_state_error_iff_witness :
    ErrArg.errorf "Invalid ExitState `%s`" "halted"
      ∈ ({ Job.failedExit with ExitState := "halted" } : Job).Validate :=
  (exit_state_error_iff { Job.failedExit with ExitState := "halted" }).2 (by decide)

/-- C22: `GrantorClaims.Validate` returns false exactly when, for one of the
pairs (GrantorSecret, grantor), (UserSecret, user), (MachineSecret, machine),
the stored secret and the supplied value are both non-empty and differ; so it
returns true when all supplied values are empty, and when all stored secrets
are empty.  `ValidateSecrets` is that function on the embedded claims. -/
theorem GrantorClaims_Validate_spec (gc : GrantorClaims) (grantor user machine : String) :
    (gc.Validate grantor user machine = false ↔
      ((gc.GrantorSecret ≠ "" ∧ grantor ≠ "" ∧ grantor ≠ gc.GrantorSecret) ∨
       (gc.UserSecret ≠ "" ∧ user ≠ "" ∧ user ≠ gc.UserSecret) ∨
       (gc.MachineSecret ≠ "" ∧ machine ≠ "" ∧ machine ≠ gc.MachineSecret))) ∧
    gc.Validate "" "" "" = true ∧
    ((gc.GrantorSecret = "" ∧ gc.UserSecret = "" ∧ gc.MachineSecret = "") →
      gc.Validate grantor user machine = true) ∧
    (∀ d : DrpCustomClaims, d.GrantorClaims = gc →
      d.ValidateSecrets grantor user machine = gc.Validate grantor user machine) := by
  refine ⟨?_, ?_, ?_, ?_⟩
  · unfold GrantorClaims.Validate
    split_ifs <;> simp_all
  · simp [GrantorClaims.Validate]
  · rintro ⟨h1, h2, h3⟩
    simp [GrantorClaims.Validate, h1, h2, h3]
  · rintro d rfl
    rfl

/-- Witness for C22: a stored user secret and a different supplied one. -/
theorem GrantorClaims_Validate_spec_witness :
    ({ GrantorId := "rocketskates", GrantorSecret := "", UserId := "fred",
       UserSecret := "s1", MachineUuid := "", MachineSecret := "" } : GrantorClaims).Validate
      "g" "s2" "" = false :=
  (GrantorClaims_Validate_spec
    ({ GrantorId := "rocketskates", GrantorSecret := "", UserId := "fred",
       UserSecret := "s1", MachineUuid := "", MachineSecret := "" } : GrantorClaims)
    "g" "s2" "").1.2 (by decide)

theorem NewJwtManager_method (key : List Byte) (configs : List JwtConfig) :
    ∃ mine, (NewJwtManager key configs).method = some mine ∧
      (NewJwtManager key configs).key = key ∧
      ((configs.head?.bind JwtConfig.Method) = none → mine = SigningMethodHS256) := by
  unfold NewJwtManager JwtManager.setDefaults
  cases configs with
  | nil => exact ⟨SigningMethodHS256, by simp⟩
  | cons c0 rest =>
    cases hm : c0.Method with
    | none => exact ⟨SigningMethodHS256, by simp [hm]⟩
    | some mm => exact ⟨mm, by simp [hm]⟩

/-- C23: on a manager that has a signing method (every manager built by
`NewJwtManager` has one, HS256 unless the first config names another),
`getKey` returns the manager's key exactly when the token has a non-nil method
whose algorithm name equals that of the manager's method; in every other case
(nil method, or another algorithm) it returns no key and
`ErrHashUnavailable`. -/
theorem getKey_spec (m : JwtManager) (mine : SigningMethod) (unverified : Token)
    (hm : m.method = some mine) :
    (m.getKey unverified = some (.ok m.key) ↔
      ∃ meth, unverified.Method = some meth ∧ meth.alg = mine.alg) ∧
    ((¬ ∃ meth, unverified.Method = some meth ∧ meth.alg = mine.alg) →
      m.getKey unverified = some (.error ErrHashUnavailable)) ∧
    (∀ key configs, ∃ built, (NewJwtManager key configs).method = some built ∧
      ((configs.head?.bind JwtConfig.Method) = none → built = SigningMethodHS256)) := by
  refine ⟨?_, ?_, ?_⟩
  · unfold JwtManager.getKey
    cases hu : unverified.Method with
    | none => simp
    | some meth =>
      by_cases ha : meth.alg = mine.alg <;> simp [hm, ha]
  · intro hne
    unfold JwtManager.getKey
    cases hu : unverified.Method with
    | none => rfl
    | some meth =>
      have ha : meth.alg ≠ mine.alg := fun h => hne ⟨meth, hu, h⟩
      simp [hm, ha]
  · intro key configs
    obtain ⟨b, h1, _, h3⟩ := NewJwtManager_method key configs
    exact ⟨b, h1, h3⟩

/-- Witness for C23: a token with the method "none" against the default HS256
manager gets no key. -/
theorem getKey_spec_witness :
    (NewJwtManager [1, 2, 3] []).getKey { Method := some SigningMethodNone }
      = some (.error ErrHashUnavailable) :=
  (getKey_spec (NewJwtManager [1, 2, 3] []) SigningMethodHS256
    { Method := some SigningMethodNone } rfl).2.1 (by decide)

/-- C24: for every user, grantor and ttl, the token built by `NewClaim` has
empty DrpClaims and DrpRoles, so that `ClaimsList` returns the empty list and
`match` returns false for every role; `AddMachine` and `AddSecrets` keep it so,
and the list of claims is empty no longer once `AddRawClaim` is called. -/
theorem NewClaim_allows_nothing {C : Type} (rt : RoleEnv C) (now1 now2 : Int)
    (user grantor : String) (ttl : Int) :
    (NewClaim now1 now2 user grantor ttl).DrpClaims = [] ∧
    (NewClaim now1 now2 user grantor ttl).DrpRoles = [] ∧
    (NewClaim now1 now2 user grantor ttl).ClaimsList rt = [] ∧
    (∀ r, (NewClaim now1 now2 user grantor ttl).matches rt r = false) ∧
    (∀ uuid r, ((NewClaim now1 now2 user grantor ttl).AddMachine uuid).matches rt r = false) ∧
    (∀ u g mach r,
      ((NewClaim now1 now2 user grantor ttl).AddSecrets u g mach).matches rt r = false) ∧
    (∀ scope action specific,
      ((NewClaim now1 now2 user grantor ttl).AddRawClaim scope action specific).ClaimsList rt
        = [rt.compile [{ Scope := scope, Action := action, Specific := specific }]]) := by
  refine ⟨rfl, rfl, rfl, fun _ => rfl, fun _ _ => rfl, fun _ _ _ _ => rfl, fun _ _ _ => ?_⟩
  simp [DrpCustomClaims.ClaimsList, DrpCustomClaims.AddRawClaim, NewClaim]

/-- C25, at the failing input: the `Args` function of `tasks add` returns nil
for the arguments id, "at", "-1" and one task, and `RunE` then hands the
offset -1 to `AddTasks`. -/
theorem negative_offset_is_accepted :
    tasksAddArgs "drpcli machines tasks add [id] [at [offset]] [task...]"
      ["6e3e8c07-0f4b-4c3e-9f0b-0a0b0c0d0e0f", "at", "-1", "ssh-access"] = none ∧
    tasksAddRun ["6e3e8c07-0f4b-4c3e-9f0b-0a0b0c0d0e0f", "at", "-1", "ssh-access"]
      = ("6e3e8c07-0f4b-4c3e-9f0b-0a0b0c0d0e0f", -1, ["ssh-access"]) ∧
    tasksAddArgs "drpcli machines tasks add [id] [at [offset]] [task...]"
      ["6e3e8c07-0f4b-4c3e-9f0b-0a0b0c0d0e0f", "at", "-250", "ssh-access", "reboot"] = none ∧
    tasksAddArgs "drpcli machines tasks add [id] [at [offset]] [task...]"
      ["6e3e8c07-0f4b-4c3e-9f0b-0a0b0c0d0e0f", "at", "x1", "ssh-access"]
      = some "x1: %!s(MISSING) is not a number" := by
  decide

/-! ## Properties of the log readers and of the drain loop -/

theorem isWaiting_waiting (v : Int) :
    isWaiting ⟨.trace, false, "Unload: waiting - " ++ toString v ++ "\n"⟩ = true := by
  simp [isWaiting, String.data_append]

theorem isWaiting_started :
    isWaiting ⟨.trace, false, "Unload: started\n"⟩ = false := by
  decide

theorem isWaiting_finished :
    isWaiting ⟨.trace, false, "Unload: finished\n"⟩ = false := by
  decide

theorem emitted_unload (s : Sys) :
    s.emitted .unload
      = match s.unl with
        | .sleeping count => (s.pc.unloadPoll count).2.2
        | _ => s.pc.unloadBegin.2.2 := by
  unfold Sys.emitted Sys.step
  cases s.unl <;> simp

/-- One iteration of the drain loop: the step leaves `Unload` asleep with the
count one higher, and writes one progress entry exactly when the count before
was a multiple of 100. -/
theorem step_unload_polling (s : Sys) (h : s.pc.inflight ≠ 0) :
    (s.step .unload).unl = .sleeping (s.count + 1) ∧
    (s.emitted .unload).countP isWaiting = (if s.count % 100 = 0 then 1 else 0) := by
  rw [emitted_unload]
  unfold Sys.step Sys.count
  cases hu : s.unl with
  | sleeping c =>
    by_cases hc : c % 100 = 0 <;>
      simp [PluginClient.unloadPoll, PluginClient.unloadCheck, h, hc, isWaiting_waiting]
  | idle =>
    simp [PluginClient.unloadBegin, PluginClient.unloadCheck, h, isWaiting_waiting,
      isWaiting_started, List.countP_cons]
  | returned =>
    simp [PluginClient.unloadBegin, PluginClient.unloadCheck, h, isWaiting_waiting,
      isWaiting_started, List.countP_cons]

/-- The step of `Unload` that finds the counter at zero returns and writes no
progress entry. -/
theorem step_unload_closing (s : Sys) (h : s.pc.inflight = 0) :
    (s.step .unload).unl = .returned ∧ (s.emitted .unload).countP isWaiting = 0 := by
  refine ⟨(step_unload_returned s).2 h, ?_⟩
  rw [emitted_unload]
  cases hu : s.unl with
  | sleeping c =>
    simp [PluginClient.unloadPoll, PluginClient.unloadCheck, h, isWaiting_finished]
  | idle =>
    simp [PluginClient.unloadBegin, PluginClient.unloadCheck, h, isWaiting_started,
      isWaiting_finished]
  | returned =>
    simp [PluginClient.unloadBegin, PluginClient.unloadCheck, h, isWaiting_started,
      isWaiting_finished]

theorem step_other_count (s : Sys) (a : Action) (ha : a ≠ .unload) :
    (s.step a).count = s.count := by
  cases a with
  | unload => exact absurd rfl ha
  | reserve => rfl
  | release => rfl

theorem unloadLog_append (s : Sys) (xs ys : List Action) :
    unloadLog s (xs ++ ys) = unloadLog s xs ++ unloadLog (s.run xs) ys := by
  induction xs generalizing s with
  | nil => rfl
  | cons a as ih => simp [unloadLog, Sys.run, ih]

theorem unloadSteps_append (xs ys : List Action) :
    unloadSteps (xs ++ ys) = unloadSteps xs + unloadSteps ys := by
  induction xs with
  | nil => simp [unloadSteps]
  | cons a as ih => simp [unloadSteps, ih]; omega

theorem polling_append (s : Sys) (xs ys : List Action) :
    s.polling (xs ++ ys) = (s.polling xs && (s.run xs).polling ys) := by
  induction xs generalizing s with
  | nil => simp [Sys.polling, Sys.run]
  | cons a as ih => simp [Sys.polling, Sys.run, ih, Bool.and_assoc]

/-- Along a run in which every step of `Unload` is an iteration of the drain
loop, the count grows by one per iteration and the progress entries written
are those of the iterations whose count was a multiple of 100. -/
theorem polling_run (acts : List Action) :
    ∀ s : Sys, s.polling acts = true →
      (s.run acts).count = s.count + unloadSteps acts ∧
      (unloadLog s acts).countP isWaiting + (s.count + 99) / 100
        = (s.count + unloadSteps acts + 99) / 100 := by
  induction acts with
  | nil => intro s _; simp [Sys.run, unloadSteps, unloadLog]
  | cons a as ih =>
    intro s hp
    simp only [Sys.polling, Bool.and_eq_true, Bool.or_eq_true, decide_eq_true_eq,
      bne_iff_ne] at hp
    obtain ⟨ha, hrest⟩ := hp
    obtain ⟨ih1, ih2⟩ := ih (s.step a) hrest
    by_cases hau : a = .unload
    · subst hau
      have hnz : s.pc.inflight ≠ 0 := by
        rcases ha with ha | ha
        · exact absurd rfl ha
        · exact ha
      obtain ⟨hs1, hs2⟩ := step_unload_polling s hnz
      have hcount : (s.step .unload).count = s.count + 1 := by
        simp [Sys.count, hs1]
      rw [hcount] at ih1 ih2
      simp only [Sys.run, unloadSteps, unloadLog, if_true, List.countP_append, hs2]
      refine ⟨by rw [ih1]; omega, ?_⟩
      by_cases hc : s.count % 100 = 0 <;> simp only [hc, if_true, if_false] <;> omega
    · have hcount := step_other_count s a hau
      rw [hcount] at ih1 ih2
      simp only [Sys.run, unloadSteps, unloadLog, hau, if_false, List.nil_append]
      exact ⟨by rw [ih1]; omega, by rw [ih2]; congr 2; omega⟩

theorem finishedSends_append (xs ys : List Event) :
    finishedSends (xs ++ ys) = finishedSends xs + finishedSends ys := by
  induction xs with
  | nil => simp [finishedSends]
  | cons e es ih =>
    cases e <;> simp [finishedSends, ih]
    omega

theorem finishedSends_map_log (ls : List LogEntry) :
    finishedSends (ls.map Event.log) = 0 := by
  induction ls with
  | nil => rfl
  | cons e es ih => simp [finishedSends, ih]

theorem readers_append (xs ys : List Event) :
    readers (xs ++ ys) = readers xs ++ readers ys := by
  induction xs with
  | nil => rfl
  | cons e es ih => cases e <;> simp [readers, ih]

theorem readers_map_log (ls : List LogEntry) :
    readers (ls.map Event.log) = [] := by
  induction ls with
  | nil => rfl
  | cons e es ih => simp [readers, ih]

theorem readers_readEvents (h : Host) (plugin : String) (ev : List Event) :
    readers (readEvents h plugin ev) = readers ev ++ ["se"] := by
  unfold readEvents
  cases (scanReady plugin h.soLines).stopped <;> cases h.soErr <;>
    simp [-List.map_map, readers_append, readers_map_log, readers]

theorem readers_configure (h : Host) (a : PluginClient) (plugin socketPath : String)
    (params : Params) (ev : List Event) :
    readers (configure h a plugin socketPath params ev).events = readers ev ++ ["so"] ∧
    ∀ c, (configure h a plugin socketPath params ev).answer = some c →
      c.finished = a.finished := by
  unfold configure
  cases h.config params <;> simp [readers_append, readers]

/-- The readers `NewPluginClient` starts: none when a pipe is missing, "se"
when the read loop ends on "Failed", "se" and then "so" otherwise; a client
that is returned has a `finished` channel of capacity 2. -/
theorem readers_NewPluginClient (h : Host)
    (pluginCommDir plugin apiURL staticURL token path : String) (params : Params) :
    (readers (NewPluginClient h pluginCommDir plugin apiURL staticURL token path params).events
        = [] ∨
      readers (NewPluginClient h pluginCommDir plugin apiURL staticURL token path params).events
        = ["se"] ∨
      readers (NewPluginClient h pluginCommDir plugin apiURL staticURL token path params).events
        = ["se", "so"]) ∧
    (∀ c, (NewPluginClient h pluginCommDir plugin apiURL staticURL token path params).answer
        = some c → c.finished = some 2) := by
  have hs : readers (setupEvents h pluginCommDir plugin apiURL staticURL token path
      ++ [.closeStdin]) = [] := by
    simp [setupEvents, readers]
  by_cases hp : h.pipesOk
  · cases hf : (scanReady plugin h.soLines).failed
    · rw [NewPluginClient_passed h _ _ _ _ _ _ _ hp hf]
      obtain ⟨h1, h2⟩ := readers_configure h
        { PluginClient.fresh plugin with
            cmd := some (pluginCmd h pluginCommDir plugin apiURL staticURL token path),
            finished := some 2 }
        plugin (pluginCommDir ++ "/" ++ plugin ++ ".toPlugin") params
        (readEvents h plugin
          (setupEvents h pluginCommDir plugin apiURL staticURL token path ++ [.closeStdin]))
      refine ⟨Or.inr (Or.inr ?_), fun c hc => h2 c hc⟩
      rw [h1, readers_readEvents, hs]
      rfl
    · rw [NewPluginClient_failed h _ _ _ _ _ _ _ hp hf]
      refine ⟨Or.inr (Or.inl ?_), fun c hc => by cases hc⟩
      simp only [readers_append, readers_readEvents, hs]
      rfl
  · obtain ⟨ha, _, he⟩ := NewPluginClient_of_not_pipesOk h pluginCommDir plugin apiURL
      staticURL token path params hp
    refine ⟨Or.inl ?_, fun c hc => by rw [ha] at hc; cases hc⟩
    rw [he]
    simp [setupEvents, readers]

theorem readLog_shape (pc : PluginClient) (name : String) (lines : List String)
    (err : Option String) :
    ∃ front, readLog pc name lines err
        = front ++ [.sendFinished, .log ⟨.trace, false,
            "readLog: Finished log reader " ++ pc.plugin ++ "(" ++ name ++ ")\n"⟩] ∧
      infoLogs front
        = lines.map (fun s =>
            ⟨.info, true, "Plugin " ++ pc.plugin ++ "(" ++ name ++ "): " ++ s⟩) ∧
      finishedSends front = 0 := by
  refine ⟨_, rfl, ?_, ?_⟩
  · have hi := infoLogs_readLog pc name lines err
    unfold readLog at hi
    rw [infoLogs_append] at hi
    simpa [infoLogs] using hi
  · have hmap : lines.map (fun s =>
          Event.log ⟨.info, true, "Plugin " ++ pc.plugin ++ "(" ++ name ++ "): " ++ s⟩)
        = (lines.map (fun s =>
          (⟨.info, true, "Plugin " ++ pc.plugin ++ "(" ++ name ++ "): " ++ s⟩ : LogEntry))).map
            Event.log := by
      simp
    rw [hmap]
    cases err <;>
      simp [-List.map_map, finishedSends_append, finishedSends_map_log, finishedSends]

theorem finishedSends_readLog (pc : PluginClient) (name : String) (lines : List String)
    (err : Option String) :
    finishedSends (readLog pc name lines err) = 1 := by
  obtain ⟨front, he, _, hf⟩ := readLog_shape pc name lines err
  rw [he, finishedSends_append, hf]
  rfl

/-! ### The claims about the completion signals and the progress log -/

/-- C26: every `readLog` call on a stream that ends, at EOF or with a read
error, sends exactly one signal on `finished`, after the entries for all the
lines of the stream; `NewPluginClient` starts at most the two readers "se" and
"so", and makes the channel of the client with capacity 2, so that the signals
sent by the readers of one instance, whatever their streams, number at most
2. -/
theorem readers_signal_within_capacity (pc : PluginClient) (name : String)
    (lines : List String) (err : Option String) (h : Host)
    (pluginCommDir plugin apiURL staticURL token path : String) (params : Params)
    (streams : String → List String × Option String) :
    finishedSends (readLog pc name lines err) = 1 ∧
    (∃ front, readLog pc name lines err
        = front ++ [.sendFinished, .log ⟨.trace, false,
            "readLog: Finished log reader " ++ pc.plugin ++ "(" ++ name ++ ")\n"⟩] ∧
      infoLogs front
        = lines.map (fun s =>
            ⟨.info, true, "Plugin " ++ pc.plugin ++ "(" ++ name ++ "): " ++ s⟩) ∧
      finishedSends front = 0) ∧
    (readers (NewPluginClient h pluginCommDir plugin apiURL staticURL token path params).events
        = [] ∨
      readers (NewPluginClient h pluginCommDir plugin apiURL staticURL token path params).events
        = ["se"] ∨
      readers (NewPluginClient h pluginCommDir plugin apiURL staticURL token path params).events
        = ["se", "so"]) ∧
    (∀ c, (NewPluginClient h pluginCommDir plugin apiURL staticURL token path params).answer
        = some c → c.finished = some 2) ∧
    ((readers (NewPluginClient h pluginCommDir plugin apiURL staticURL token path
        params).events).map
      (fun r => finishedSends (readLog pc r (streams r).1 (streams r).2))).sum ≤ 2 := by
  obtain ⟨hr, hc⟩ := readers_NewPluginClient h pluginCommDir plugin apiURL staticURL token
    path params
  refine ⟨finishedSends_readLog pc name lines err, readLog_shape pc name lines err, hr, hc, ?_⟩
  rcases hr with hr | hr | hr <;> rw [hr] <;> simp [finishedSends_readLog]

/-- C27: `Unload` writes its "waiting" entry exactly on the iterations of the
drain loop whose index, counted from 0, is a multiple of 100.  In a run where
`Unload` polls n times (each of its steps finds the counter nonzero) and then
finds the counter at zero: the next step returns; the progress entries it
wrote number (n + 99) / 100, that is n / 100 rounded up; the iteration after
`front` writes one exactly when the number of iterations in `front` is a
multiple of 100, and leaves `Unload` paused.  An `Unload` that finds the
counter at zero on entry returns at once, without a progress entry and
without pausing. -/
theorem unload_progress_every_100 (pc0 : PluginClient) (acts : List Action)
    (hp : (Sys.init pc0).polling acts = true)
    (hz : ((Sys.init pc0).run acts).pc.inflight = 0) :
    ((Sys.init pc0).run (acts ++ [Action.unload])).unl = .returned ∧
    (unloadLog (Sys.init pc0) (acts ++ [Action.unload])).countP isWaiting
      = (unloadSteps acts + 99) / 100 ∧
    (∀ front back, acts = front ++ Action.unload :: back →
      (((Sys.init pc0).run front).emitted Action.unload).countP isWaiting
        = (if unloadSteps front % 100 = 0 then 1 else 0) ∧
      (((Sys.init pc0).run front).step Action.unload).unl
        = .sleeping (unloadSteps front + 1)) ∧
    (∀ pc : PluginClient, pc.inflight = 0 →
      pc.unloadBegin.2.1 = .returned ∧ pc.unloadBegin.2.2.countP isWaiting = 0) := by
  have hinit : (Sys.init pc0).count = 0 := rfl
  refine ⟨?_, ?_, ?_, ?_⟩
  · rw [run_snoc]
    exact (step_unload_closing _ hz).1
  · obtain ⟨_, h2⟩ := polling_run acts (Sys.init pc0) hp
    rw [hinit] at h2
    rw [unloadLog_append, List.countP_append]
    have hlast : (unloadLog ((Sys.init pc0).run acts) [Action.unload]).countP isWaiting = 0 := by
      simp only [unloadLog, if_true, List.append_nil]
      exact (step_unload_closing _ hz).2
    rw [hlast]
    omega
  · intro front back he
    rw [he, polling_append] at hp
    simp only [Bool.and_eq_true] at hp
    obtain ⟨hp1, hp2⟩ := hp
    obtain ⟨hc, _⟩ := polling_run front (Sys.init pc0) hp1
    rw [hinit, Nat.zero_add] at hc
    have hnz : ((Sys.init pc0).run front).pc.inflight ≠ 0 := by
      simp only [Sys.polling, Bool.and_eq_true, Bool.or_eq_true, decide_eq_true_eq,
        bne_iff_ne] at hp2
      rcases hp2.1 with hh | hh
      · exact absurd rfl hh
      · exact hh
    obtain ⟨hs1, hs2⟩ := step_unload_polling _ hnz
    rw [hc] at hs1 hs2
    exact ⟨hs2, hs1⟩
  · intro pc hpc
    have h := step_unload_closing (Sys.init pc) hpc
    rw [emitted_unload] at h
    exact ⟨by simpa [Sys.step, Sys.init] using h.1, by simpa [Sys.init] using h.2⟩

/-- Witness for C27: with one call in flight `Unload` polls twice, writing one
progress entry on the first iteration, and returns after the `Release`. -/
theorem unload_progress_every_100_witness :
    ((Sys.fresh "incrementer").run
      ([Action.reserve, Action.unload, Action.unload, Action.release]
        ++ [Action.unload])).unl = .returned ∧
    (unloadLog (Sys.fresh "incrementer")
      ([Action.reserve, Action.unload, Action.unload, Action.release]
        ++ [Action.unload])).countP isWaiting
      = (unloadSteps [Action.reserve, Action.unload, Action.unload, Action.release] + 99)
          / 100 :=
  ⟨(unload_progress_every_100 (PluginClient.fresh "incrementer")
      [Action.reserve, Action.unload, Action.unload, Action.release]
      (by decide) (by decide)).1,
   (unload_progress_every_100 (PluginClient.fresh "incrementer")
      [Action.reserve, Action.unload, Action.unload, Action.release]
      (by decide) (by decide)).2.1⟩

/-! ## Properties of the keys and of the token encryption -/

theorem hexDigit_inj : ∀ i j : Fin 16,
    hexDigit.getD i.val '0' = hexDigit.getD j.val '0' → i = j := by
  decide

theorem hexPair_eq (tn : Byte) :
    hexPair tn = [hexDigit.getD (tn.val / 16) '0', hexDigit.getD (tn.val % 16) '0'] := by
  unfold hexPair
  rw [Nat.shiftRight_eq_div_pow]
  have h : tn.val &&& 0xf = tn.val % 16 := Nat.and_pow_two_sub_one_eq_mod tn.val 4
  rw [h]

theorem hexPair_inj (a b : Byte) (h : hexPair a = hexPair b) : a = b := by
  rw [hexPair_eq, hexPair_eq] at h
  simp only [List.cons.injEq, and_true] at h
  obtain ⟨h1, h2⟩ := h
  have ha : a.val < 256 := a.isLt
  have hb : b.val < 256 := b.isLt
  have e1 := hexDigit_inj ⟨a.val / 16, by omega⟩ ⟨b.val / 16, by omega⟩ h1
  have e2 := hexDigit_inj ⟨a.val % 16, by omega⟩ ⟨b.val % 16, by omega⟩ h2
  have e1v : a.val / 16 = b.val / 16 := congrArg Fin.val e1
  have e2v : a.val % 16 = b.val % 16 := congrArg Fin.val e2
  exact Fin.ext (by omega)

theorem flatMap_hexPair_inj (l : List Byte) :
    ∀ l2 : List Byte, l.flatMap hexPair = l2.flatMap hexPair → l = l2 := by
  induction l with
  | nil =>
    intro l2 h
    cases l2 with
    | nil => rfl
    | cons b bs => simp [List.flatMap_cons, hexPair] at h
  | cons a as ih =>
    intro l2 h
    cases l2 with
    | nil => simp [List.flatMap_cons, hexPair] at h
    | cons b bs =>
      have hp : hexPair a = hexPair b ∧ as.flatMap hexPair = bs.flatMap hexPair := by
        simp only [List.flatMap_cons, hexPair, List.cons_append, List.nil_append,
          List.cons.injEq] at h ⊢
        exact ⟨⟨h.1, h.2.1, trivial⟩, h.2.2⟩
      rw [hexPair_inj a b hp.1, ih bs hp.2]

theorem Hexaddr_eq_iff (ip ip2 : List Byte) :
    Hexaddr ip = Hexaddr ip2 ↔ To4 ip = To4 ip2 := by
  unfold Hexaddr
  constructor
  · intro h
    exact flatMap_hexPair_inj _ _ (congrArg String.data h)
  · intro h
    rw [h]

theorem To4_four (a b c d : Byte) : To4 [a, b, c, d] = [a, b, c, d] := rfl

theorem To4_mapped4 (a b c d : Byte) : To4 (mapped4 a b c d) = [a, b, c, d] := rfl

/-- C28: for the IPv4 address a.b.c.d, given as 4 bytes or in the 16-byte
IPv4-mapped form, `Hexaddr` returns the 8 characters made of the two
hexadecimal digits of a, of b, of c and of d, in this order, where the digit
for a value below 10 is the decimal digit and the digit for 10 to 15 is the
capital letter A to F.  Two addresses have the same `Hexaddr`, hence the same
`Lease.Key` and `Reservation.Key`, exactly when `To4` gives the same IPv4
address for both.  For an address that is not IPv4 the result is the empty
string. -/
theorem Hexaddr_spec :
    (∀ a b c d : Byte,
      Hexaddr [a, b, c, d]
        = String.mk [hexDigit.getD (a.val / 16) '0', hexDigit.getD (a.val % 16) '0',
                     hexDigit.getD (b.val / 16) '0', hexDigit.getD (b.val % 16) '0',
                     hexDigit.getD (c.val / 16) '0', hexDigit.getD (c.val % 16) '0',
                     hexDigit.getD (d.val / 16) '0', hexDigit.getD (d.val % 16) '0'] ∧
      (Hexaddr [a, b, c, d]).length = 8 ∧
      Hexaddr (mapped4 a b c d) = Hexaddr [a, b, c, d]) ∧
    (∀ v : Fin 16,
      hexDigit.getD v.val '0' = Char.ofNat (if v.val < 10 then 48 + v.val else 55 + v.val)) ∧
    (∀ ip ip2 : List Byte, Hexaddr ip = Hexaddr ip2 ↔ To4 ip = To4 ip2) ∧
    (∀ l l2 : Lease, l.Key = l2.Key ↔ To4 l.Addr = To4 l2.Addr) ∧
    (∀ r r2 : Reservation, r.Key = r2.Key ↔ To4 r.Addr = To4 r2.Addr) ∧
    (∀ ip : List Byte, To4 ip = [] → Hexaddr ip = "") ∧
    (∀ ip : List Byte, ip.length ≠ 4 → ip.length ≠ 16 → Hexaddr ip = "") := by
  refine ⟨?_, by decide, Hexaddr_eq_iff, fun l l2 => Hexaddr_eq_iff _ _,
    fun r r2 => Hexaddr_eq_iff _ _, ?_, ?_⟩
  · intro a b c d
    have h4 : Hexaddr [a, b, c, d]
        = String.mk [hexDigit.getD (a.val / 16) '0', hexDigit.getD (a.val % 16) '0',
                     hexDigit.getD (b.val / 16) '0', hexDigit.getD (b.val % 16) '0',
                     hexDigit.getD (c.val / 16) '0', hexDigit.getD (c.val % 16) '0',
                     hexDigit.getD (d.val / 16) '0', hexDigit.getD (d.val % 16) '0'] := by
      unfold Hexaddr
      rw [To4_four]
      simp [List.flatMap_cons, hexPair_eq]
    refine ⟨h4, ?_, (Hexaddr_eq_iff _ _).2 ((To4_mapped4 a b c d).trans (To4_four a b c d).symm)⟩
    rw [h4]
    rfl
  · intro ip h
    unfold Hexaddr
    rw [h]
    rfl
  · intro ip h4 h16
    unfold Hexaddr To4
    simp [h4, h16]

/-- Witness for C28: 192.168.1.10 has the key "C0A8010A" in both forms, and a
5-byte address has the empty key. -/
theorem Hexaddr_spec_witness :
    Hexaddr [192, 168, 1, 10] = "C0A8010A" ∧
    Hexaddr (mapped4 192 168 1 10) = "C0A8010A" ∧
    Hexaddr [192, 168, 1, 10, 0] = "" :=
  ⟨(Hexaddr_spec.1 192 168 1 10).1.trans (by decide),
   ((Hexaddr_spec.1 192 168 1 10).2.2).trans ((Hexaddr_spec.1 192 168 1 10).1.trans (by decide)),
   Hexaddr_spec.2.2.2.2.2.2 [192, 168, 1, 10, 0] (by decide) (by decide)⟩

/-- C29: given the contracts of the libraries (decoding undoes the base64
encoding, the CFB decrypter undoes the CFB encrypter for the same key and IV),
for every key of 16, 24 or 32 bytes, every text and every IV that `encrypt`
draws: `encrypt` succeeds, `decrypt` of its output returns the text with no
error, and its output decodes to exactly 16 + len(text) bytes, the first 16 of
which are the IV. -/
theorem decrypt_undoes_encrypt (lib : CipherLib) (key text : List Byte) (iv : Bytes 16)
    (hkey : key.length = 16 ∨ key.length = 24 ∨ key.length = 32)
    (hiv : lib.readIV = .ok iv)
    (hb64 : ∀ bs, lib.b64decode (lib.b64encode bs) = .ok bs)
    (hcfb : ∀ k v src, (lib.cfbDecrypt k v (lib.cfbEncrypt k v src).val).val = src) :
    ∃ out, encrypt lib key text = .ok out ∧
      decrypt lib key out = .ok text ∧
      ∃ bytes, lib.b64decode out = .ok bytes ∧
        bytes.length = 16 + text.length ∧ bytes.take 16 = iv.val := by
  have hk : aesKeyError key = none := by
    unfold aesKeyError
    rw [if_pos hkey]
  have hlen : (iv.val ++ (lib.cfbEncrypt key iv.val text).val).length = 16 + text.length := by
    rw [List.length_append, iv.property, (lib.cfbEncrypt key iv.val text).property]
  have htake : (iv.val ++ (lib.cfbEncrypt key iv.val text).val).take 16 = iv.val := by
    rw [List.take_append_of_le_length (by rw [iv.property])]
    exact List.take_of_length_le (by rw [iv.property])
  have hdrop : (iv.val ++ (lib.cfbEncrypt key iv.val text).val).drop 16
      = (lib.cfbEncrypt key iv.val text).val := by
    exact List.drop_left' iv.property
  refine ⟨lib.b64encode (iv.val ++ (lib.cfbEncrypt key iv.val text).val), ?_, ?_,
    iv.val ++ (lib.cfbEncrypt key iv.val text).val, hb64 _, hlen, htake⟩
  · unfold encrypt
    rw [hk, hiv]
  · unfold decrypt
    rw [hk, hb64]
    have hnot : ¬ (iv.val ++ (lib.cfbEncrypt key iv.val text).val).length < aesBlockSize := by
      rw [hlen]
      unfold aesBlockSize
      omega
    simp only [hnot, if_false]
    unfold aesBlockSize
    rw [htake, hdrop, hcfb]

/-- Witness for C29: a 16-byte key and a three-byte text with the stand-in
libraries. -/
theorem decrypt_undoes_encrypt_witness :
    ∃ out, encrypt CipherLib.fixed (List.replicate 16 9) [104, 105, 33] = .ok out ∧
      decrypt CipherLib.fixed (List.replicate 16 9) out = .ok [104, 105, 33] ∧
      ∃ bytes, CipherLib.fixed.b64decode out = .ok bytes ∧
        bytes.length = 16 + [104, 105, 33].length ∧
        bytes.take 16 = List.replicate 16 7 :=
  decrypt_undoes_encrypt CipherLib.fixed (List.replicate 16 9) [104, 105, 33]
    ⟨List.replicate 16 7, by simp⟩ (Or.inl (by simp)) rfl
    (by intro bs; simp [CipherLib.fixed])
    (by intro k v src; simp [CipherLib.fixed, Function.comp_def])

/-! ## Properties over streams: the scanner and the environment of the child -/

theorem utf8ByteSize_go_replicate (n : Nat) :
    String.utf8ByteSize.go (List.replicate n 'x') = n := by
  induction n with
  | zero => rfl
  | succ k ih =>
    simp only [List.replicate_succ, String.utf8ByteSize.go, ih]
    rfl

theorem longLine_size : longLine.utf8ByteSize = 65536 :=
  utf8ByteSize_go_replicate 65536

theorem longLine_length : longLine.length = 65536 := by
  unfold longLine
  rw [String.length_mk, List.length_replicate]

theorem fitsScanner_longLine : fitsScanner longLine = false := by
  unfold fitsScanner
  rw [longLine_size]
  decide

theorem longLine_not_sentinel : ¬ isSentinel longLine := by
  rintro (h | h)
  · have hl := congrArg String.length h
    rw [longLine_length] at hl
    exact absurd hl (by decide)
  · have hl := congrArg String.length h
    rw [longLine_length] at hl
    exact absurd hl (by decide)

/-- The scanner stops at a line of 64 KiB: it yields the lines before it and
reports `ErrTooLong`. -/
theorem scan_longLine (front back : List String) (err : Option String)
    (hfront : ∀ t ∈ front, fitsScanner t = true) :
    (Stream.mk (front ++ longLine :: back) err).scan = (front, some ErrTooLong) := by
  unfold Stream.scan
  induction front with
  | nil =>
    simp only [List.nil_append, List.takeWhile_cons, List.all_cons, fitsScanner_longLine,
      Bool.false_and]
    rfl
  | cons t ts ih =>
    have ht : fitsScanner t = true := hfront t (List.mem_cons_self _ _)
    have ih1 := ih (fun u hu => hfront u (List.mem_cons_of_mem _ hu))
    simp only [Prod.mk.injEq] at ih1
    simp only [List.cons_append, List.takeWhile_cons, List.all_cons, ht, Bool.true_and,
      if_true, Prod.mk.injEq, List.cons.injEq, true_and]
    exact ih1

theorem takeWhile_append_of_all (p : String → Bool) (front rest : List String)
    (h : ∀ t ∈ front, p t = true) :
    (front ++ rest).takeWhile p = front ++ rest.takeWhile p := by
  induction front with
  | nil => rfl
  | cons t ts ih =>
    have ht : p t = true := h t (List.mem_cons_self _ _)
    simp only [List.cons_append, List.takeWhile_cons, ht, if_true,
      ih (fun u hu => h u (List.mem_cons_of_mem _ hu))]

theorem scan_of_all_fit (com : Stream) (h : ∀ s ∈ com.lines, fitsScanner s = true) :
    com.scan = (com.lines, com.err) := by
  unfold Stream.scan
  have h1 : com.lines.takeWhile fitsScanner = com.lines := by
    have := takeWhile_append_of_all fitsScanner com.lines [] h
    simpa using this
  have h2 : com.lines.all fitsScanner = true := List.all_eq_true.2 h
  rw [h1, h2]
  rfl

/-- C8, at the failing input: stdout delivers a line of 64 KiB and then the
line "Failed", so its first sentinel line is "Failed"; the scanner stops at
the long line, and `NewPluginClient` goes on as after "READY!": it starts the
stdout log reader, issues the `Config` call and returns a client with a nil
error. -/
theorem failed_after_long_line_is_missed :
    FirstSentinel [longLine, "Failed"] "Failed" ∧
    (loadIncrementer
      ((Host.quiet [] none).withStdout (Stream.mk [longLine, "Failed"] none))).answer.isSome
        = true ∧
    (loadIncrementer
      ((Host.quiet [] none).withStdout (Stream.mk [longLine, "Failed"] none))).theErr
        = none ∧
    configCalls (loadIncrementer
      ((Host.quiet [] none).withStdout (Stream.mk [longLine, "Failed"] none))).events
        = [[("level", "1")]] ∧
    Event.goReadLog "so" ∈ (loadIncrementer
      ((Host.quiet [] none).withStdout (Stream.mk [longLine, "Failed"] none))).events := by
  have hhost : (Host.quiet [] none).withStdout (Stream.mk [longLine, "Failed"] none)
      = { Host.quiet [] none with soLines := [], soErr := some ErrTooLong } := by
    have hs : (Stream.mk [longLine, "Failed"] none).scan = ([], some ErrTooLong) :=
      scan_longLine [] ["Failed"] none (by simp)
    unfold Host.withStdout
    rw [hs]
  rw [hhost]
  refine ⟨⟨Or.inr rfl, [longLine], [], rfl, ?_⟩, by decide, by decide, by decide, by decide⟩
  intro s hs
  rw [List.mem_singleton] at hs
  rw [hs]
  exact longLine_not_sentinel

end Provision
